import Mathlib

/-!
Verification development for the js-to-scratch translator.

This file gives a shallow embedding of the core translator
(src/translator/index.js) and of the canvas preprocessor
(utils/canvasTransformer.js), and proves or refutes the behavioural
claims C1 to C10 about them.

Modelling conventions:
- Block ids are natural numbers.  The JavaScript code produces the string
  "block_" followed by a monotonically increasing counter value; the ids
  are opaque, only freshness and equality matter, so we keep the counter
  value itself.
- JavaScript Map and Set are modelled as insertion-ordered association
  lists and duplicate-free lists.
- Thrown exceptions are modelled with Except; the recursive expression
  encoder receives fuel because compile-time inlining of function bodies
  is not structurally recursive in the source (mutually recursive
  inlinable functions make the JavaScript loop forever; running out of
  fuel is a dedicated error distinct from the exceptions the code throws).
- JSON.stringify on an array of parameter names is modelled without
  string escaping; identifier names never need escapes.
-/

namespace JsToScratch

/-- Literal values carried by acorn Literal nodes (numbers, strings,
booleans, null).  Floating point literals are out of scope; numeric
literals are integers. -/
inductive LitVal where
  | num (n : Int)
  | str (s : String)
  | bool (b : Bool)
  | nullLit
  deriving DecidableEq, Repr

/-- The JavaScript String() conversion of a literal value. -/
def litToJsString : LitVal → String
  | .num n => toString n
  | .str s => s
  | .bool b => if b then "true" else "false"
  | .nullLit => "null"

/-- The JavaScript String conversion with the empty-string default used
in convertExpressionToInput (String of v-or-empty): falsy literal values
(false, null, the empty string) become the empty string. -/
def litToJsStringOrEmpty : LitVal → String
  | .num n => toString n
  | .str s => s
  | .bool b => if b then "true" else ""
  | .nullLit => ""

/-- Object-literal property keys: identifier keys or literal keys. -/
inductive PropKey where
  | id (name : String)
  | lit (v : LitVal)
  deriving DecidableEq, Repr

mutual
/-- Expressions of the supported source-language subset, mirroring the
acorn AST shapes that the translator inspects. -/
inductive Expr where
  | lit (v : LitVal)
  | ident (name : String)
  | member (obj : Expr) (prop : Expr) (computed : Bool)
  | call (callee : Expr) (args : List Expr)
  | unary (op : String) (arg : Expr)
  | update (op : String) (arg : Expr)
  | assign (op : String) (lhs rhs : Expr)
  | binary (op : String) (l r : Expr)
  | cond (test cons alt : Expr)
  | arrow (params : List String) (body : FuncBody) (isAsync : Bool)
  | funcExpr (params : List String) (body : List Stmt) (isAsync : Bool)
  | objectLit (props : List (PropKey × Expr))
  | arrayLit (elems : List Expr)
  | awaitExpr (arg : Expr)
  deriving Repr

/-- Function bodies: arrow functions may have a bare expression body,
function expressions and declarations have a block body. -/
inductive FuncBody where
  | block (stmts : List Stmt)
  | expr (e : Expr)
  deriving Repr

/-- The init slot of a for statement: a declaration or an expression. -/
inductive ForInit where
  | decl (decls : List (String × Option Expr))
  | expr (e : Expr)
  deriving Repr

/-- Statements of the supported source-language subset. -/
inductive Stmt where
  | varDecl (decls : List (String × Option Expr))
  | funcDecl (name : String) (params : List String) (body : List Stmt) (isAsync : Bool)
  | exprStmt (e : Expr)
  | ifStmt (test : Expr) (consequent : Stmt) (alternate : Option Stmt)
  | whileStmt (test : Expr) (body : Stmt)
  | forStmt (finit : Option ForInit) (test : Option Expr) (updt : Option Expr) (body : Stmt)
  | blockStmt (body : List Stmt)
  | returnStmt (arg : Option Expr)
  | emptyStmt
  deriving Repr
end

/-- A program is the body of the acorn Program node. -/
abbrev Program := List Stmt

/-- Shadow payloads of input encodings: [4, s] numeric or [10, s] text. -/
inductive ShadowVal where
  | num (s : String)
  | text (s : String)
  deriving DecidableEq, Repr

/-- Operand of a [2, _] or [3, _, _] input encoding: a block id (possibly
null, as produced for an empty substack) or a variable reporter tuple
[12, name, name]. -/
inductive Operand where
  | blockRef (id : Option Nat)
  | varReporter (name : String)
  deriving DecidableEq, Repr

/-- The tagged-array input encodings: [1, shadow], [2, operand],
[3, operand, shadowFallback]. -/
inductive Input where
  | literalShadow (v : ShadowVal)
  | blockOnly (op : Operand)
  | blockWithShadow (op : Operand) (fallback : ShadowVal)
  deriving DecidableEq, Repr

/-- Mutation records attached to procedure and stop blocks.  The constant
tagName "mutation" and empty children array are not represented. -/
structure Mutation where
  proccode : Option String := none
  argumentids : Option String := none
  warp : Option String := none
  hasnext : Option String := none
  deriving DecidableEq, Repr

/-- One block record of the emitted block store.  Input slots map a name
to an input encoding or to null; field slots map a name to a pair of a
value and an optional second component. -/
structure Block where
  opcode : String
  next : Option Nat := none
  parent : Option Nat := none
  inputs : List (String × Option Input) := []
  fields : List (String × (String × Option String)) := []
  shadow : Bool := false
  topLevel : Bool := false
  mutation : Option Mutation := none
  deriving DecidableEq, Repr

/-- The block store: insertion list of (id, block); every insertion uses a
fresh id, so keys are unique and lookup finds the single binding. -/
abbrev BlockStore := List (Nat × Block)

/-- Lookup in an association list keyed by Nat. -/
def lookupBlock (bs : BlockStore) (id : Nat) : Option Block :=
  match bs with
  | [] => none
  | (k, b) :: rest => if k = id then some b else lookupBlock rest id

/-- Lookup in an association list keyed by String. -/
def lookupStr {α : Type} (xs : List (String × α)) (k : String) : Option α :=
  match xs with
  | [] => none
  | (k', v) :: rest => if k' = k then some v else lookupStr rest k

/-- Insertion-ordered set insertion (JavaScript Set.add). -/
def setAdd (xs : List String) (x : String) : List String :=
  if x ∈ xs then xs else xs ++ [x]

/-- Set removal (JavaScript Set.delete). -/
def setDelete (xs : List String) (x : String) : List String :=
  xs.filter (fun y => y ≠ x)

/-- Insertion-ordered map update (JavaScript Map.set): replace the value
in place when the key is present, otherwise append. -/
def mapSet {α : Type} (xs : List (String × α)) (k : String) (v : α) :
    List (String × α) :=
  match xs with
  | [] => [(k, v)]
  | (k', v') :: rest =>
      if k' = k then (k, v) :: rest else (k', v') :: mapSet rest k v

/-- Append-or-overwrite for the vars object of the emitted project
(JavaScript object property assignment keeps the original position). -/
def objSet {α : Type} (xs : List (String × α)) (k : String) (v : α) :
    List (String × α) :=
  if (lookupStr xs k).isSome then mapSet xs k v else xs ++ [(k, v)]

/-- JSON.stringify of an array of identifier strings (no escaping needed
for identifier names). -/
def jsonStringifyStrings (xs : List String) : String :=
  "[" ++ String.intercalate "," (xs.map (fun s => "\"" ++ s ++ "\"")) ++ "]"

/-- Stored definition of a named function, arrow or function expression. -/
structure FuncDef where
  params : List String
  body : FuncBody
  deriving Repr

/-- Result of the symbol-analysis passes of astToScratchBlocks. -/
structure Analysis where
  functionDefinitions : List (String × FuncDef) := []
  -- the JavaScript variables set (vars because variables is reserved here)
  vars : List String := []
  lists : List String := []
  objectMappings : List (String × List String) := []
  recursiveFunctions : List String := []
  deriving Repr

/-- Register one declarator in pass A (the first VariableDeclaration
branch of collectFunctionsAndVariables): arrow and function-expression
initializers go to functionDefinitions, array initializers to lists,
everything else adds the declared name to vars. -/
def collectDeclarator (a : Analysis) (name : String) (init : Option Expr) : Analysis :=
  match init with
  | some (.arrow ps b _) =>
      { a with functionDefinitions := mapSet a.functionDefinitions name ⟨ps, b⟩ }
  | some (.funcExpr ps b _) =>
      { a with functionDefinitions := mapSet a.functionDefinitions name ⟨ps, .block b⟩ }
  | some (.arrayLit _) => { a with lists := setAdd a.lists name }
  | _ => { a with vars := setAdd a.vars name }

/-- Register one object-literal declarator in pass A (the second
VariableDeclaration branch): each identifier or string-literal property
key yields a flattened variable objName_prop, and the ordered property
list is recorded in objectMappings. -/
def collectObjectDeclarator (a : Analysis) (name : String) (init : Option Expr) : Analysis :=
  match init with
  | some (.objectLit props) =>
      let step := fun (acc : Analysis × List String) (p : PropKey × Expr) =>
        match p.1 with
        | .id k => ({ acc.1 with vars := setAdd acc.1.vars (name ++ "_" ++ k) },
                    acc.2 ++ [k])
        | .lit (.str k) =>
            ({ acc.1 with vars := setAdd acc.1.vars (name ++ "_" ++ k) },
             acc.2 ++ [k])
        | _ => acc
      let r := props.foldl step (a, [])
      { r.1 with objectMappings := mapSet r.1.objectMappings name r.2 }
  | _ => a

/-- List-mutating method names recognised on identifier receivers. -/
def listMethodNames : List String := ["push", "pop", "shift", "unshift", "splice", "slice"]

mutual
/-- Pass A of astToScratchBlocks (collectFunctionsAndVariables): walk the
tree collecting function definitions, vars, lists and object
mappings.  Node-local actions happen before the recursion into children,
children are visited in acorn field order. -/
def collectStmt (a : Analysis) : Stmt → Analysis
  | .varDecl decls =>
      let a := decls.foldl (fun a d => collectDeclarator a d.1 d.2) a
      let a := decls.foldl (fun a d => collectObjectDeclarator a d.1 d.2) a
      collectDeclList a decls
  | .funcDecl name params body _ =>
      let a := { a with functionDefinitions := mapSet a.functionDefinitions name ⟨params, .block body⟩ }
      collectStmtList a body
  | .exprStmt e => collectExpr a e
  | .ifStmt t c alt =>
      let a := collectExpr a t
      let a := collectStmt a c
      collectStmtOpt a alt
  | .whileStmt t b =>
      let a := collectExpr a t
      collectStmt a b
  | .forStmt finit t u b =>
      let a := collectForInit a finit
      let a := collectExprOpt a t
      let a := collectExprOpt a u
      collectStmt a b
  | .blockStmt body => collectStmtList a body
  | .returnStmt arg => collectExprOpt a arg
  | .emptyStmt => a

def collectForInit (a : Analysis) : Option ForInit → Analysis
  | none => a
  | some (.decl decls) =>
      let a := decls.foldl (fun a d => collectDeclarator a d.1 d.2) a
      let a := decls.foldl (fun a d => collectObjectDeclarator a d.1 d.2) a
      collectDeclList a decls
  | some (.expr e) => collectExpr a e

def collectExpr (a : Analysis) : Expr → Analysis
  | .lit _ => a
  | .ident _ => a
  | .member obj prop computed =>
      let a :=
        match obj with
        | .ident objName =>
            if computed || (match prop with | .ident pn => pn == "length" | _ => false) then
              { a with lists := setAdd a.lists objName }
            else a
        | _ => a
      let a :=
        match obj, prop with
        | .ident objName, .ident propName =>
            if ¬computed ∧ (lookupStr a.objectMappings objName).isSome then
              { a with vars := setAdd a.vars (objName ++ "_" ++ propName) }
            else a
        | _, _ => a
      let a := collectExpr a obj
      collectExpr a prop
  | .call callee args =>
      let a :=
        match callee with
        | .member (.ident objName) (.ident m) _ =>
            if m ∈ listMethodNames then { a with lists := setAdd a.lists objName } else a
        | _ => a
      let a := collectExpr a callee
      collectExprList a args
  | .unary _ e => collectExpr a e
  | .update _ e => collectExpr a e
  | .assign _ l r =>
      let a := collectExpr a l
      collectExpr a r
  | .binary _ l r =>
      let a := collectExpr a l
      collectExpr a r
  | .cond t c alt =>
      let a := collectExpr a t
      let a := collectExpr a c
      collectExpr a alt
  | .arrow _ b _ => collectFuncBody a b
  | .funcExpr _ b _ => collectStmtList a b
  | .objectLit props => collectPropList a props
  | .arrayLit elems => collectExprList a elems
  | .awaitExpr e => collectExpr a e

def collectFuncBody (a : Analysis) : FuncBody → Analysis
  | .block stmts => collectStmtList a stmts
  | .expr e => collectExpr a e

def collectStmtOpt (a : Analysis) : Option Stmt → Analysis
  | none => a
  | some s => collectStmt a s

def collectExprOpt (a : Analysis) : Option Expr → Analysis
  | none => a
  | some e => collectExpr a e

def collectStmtList (a : Analysis) : List Stmt → Analysis
  | [] => a
  | s :: rest => collectStmtList (collectStmt a s) rest

def collectExprList (a : Analysis) : List Expr → Analysis
  | [] => a
  | e :: rest => collectExprList (collectExpr a e) rest

def collectPropList (a : Analysis) : List (PropKey × Expr) → Analysis
  | [] => a
  | p :: rest => collectPropList (collectExpr a p.2) rest

def collectDeclList (a : Analysis) : List (String × Option Expr) → Analysis
  | [] => a
  | d :: rest => collectDeclList (collectExprOpt a d.2) rest
end

mutual
/-- Pass B of astToScratchBlocks (collectVariableReferences): every
assignment whose target is an identifier adds that identifier to the
vars set. -/
def refsStmt (a : Analysis) : Stmt → Analysis
  | .varDecl decls => refsDeclList a decls
  | .funcDecl _ _ body _ => refsStmtList a body
  | .exprStmt e => refsExpr a e
  | .ifStmt t c alt =>
      let a := refsExpr a t
      let a := refsStmt a c
      refsStmtOpt a alt
  | .whileStmt t b =>
      let a := refsExpr a t
      refsStmt a b
  | .forStmt finit t u b =>
      let a := refsForInit a finit
      let a := refsExprOpt a t
      let a := refsExprOpt a u
      refsStmt a b
  | .blockStmt body => refsStmtList a body
  | .returnStmt arg => refsExprOpt a arg
  | .emptyStmt => a

def refsForInit (a : Analysis) : Option ForInit → Analysis
  | none => a
  | some (.decl decls) => refsDeclList a decls
  | some (.expr e) => refsExpr a e

def refsExpr (a : Analysis) : Expr → Analysis
  | .lit _ => a
  | .ident _ => a
  | .member obj prop _ =>
      let a := refsExpr a obj
      refsExpr a prop
  | .call callee args =>
      let a := refsExpr a callee
      refsExprList a args
  | .unary _ e => refsExpr a e
  | .update _ e => refsExpr a e
  | .assign _ l r =>
      let a :=
        match l with
        | .ident n => { a with vars := setAdd a.vars n }
        | _ => a
      let a := refsExpr a l
      refsExpr a r
  | .binary _ l r =>
      let a := refsExpr a l
      refsExpr a r
  | .cond t c alt =>
      let a := refsExpr a t
      let a := refsExpr a c
      refsExpr a alt
  | .arrow _ b _ => refsFuncBody a b
  | .funcExpr _ b _ => refsStmtList a b
  | .objectLit props => refsPropList a props
  | .arrayLit elems => refsExprList a elems
  | .awaitExpr e => refsExpr a e

def refsFuncBody (a : Analysis) : FuncBody → Analysis
  | .block stmts => refsStmtList a stmts
  | .expr e => refsExpr a e

def refsStmtOpt (a : Analysis) : Option Stmt → Analysis
  | none => a
  | some s => refsStmt a s

def refsExprOpt (a : Analysis) : Option Expr → Analysis
  | none => a
  | some e => refsExpr a e

def refsStmtList (a : Analysis) : List Stmt → Analysis
  | [] => a
  | s :: rest => refsStmtList (refsStmt a s) rest

def refsExprList (a : Analysis) : List Expr → Analysis
  | [] => a
  | e :: rest => refsExprList (refsExpr a e) rest

def refsPropList (a : Analysis) : List (PropKey × Expr) → Analysis
  | [] => a
  | p :: rest => refsPropList (refsExpr a p.2) rest

def refsDeclList (a : Analysis) : List (String × Option Expr) → Analysis
  | [] => a
  | d :: rest => refsDeclList (refsExprOpt a d.2) rest
end

mutual
/-- Search used by isRecursive: does the tree contain a call expression
whose callee is the identifier funcName. -/
def callsNameStmt (funcName : String) : Stmt → Bool
  | .varDecl decls => callsNameDeclList funcName decls
  | .funcDecl _ _ body _ => callsNameStmtList funcName body
  | .exprStmt e => callsNameExpr funcName e
  | .ifStmt t c alt =>
      callsNameExpr funcName t || callsNameStmt funcName c || callsNameStmtOpt funcName alt
  | .whileStmt t b => callsNameExpr funcName t || callsNameStmt funcName b
  | .forStmt finit t u b =>
      callsNameForInit funcName finit || callsNameExprOpt funcName t ||
        callsNameExprOpt funcName u || callsNameStmt funcName b
  | .blockStmt body => callsNameStmtList funcName body
  | .returnStmt arg => callsNameExprOpt funcName arg
  | .emptyStmt => false

def callsNameForInit (funcName : String) : Option ForInit → Bool
  | none => false
  | some (.decl decls) => callsNameDeclList funcName decls
  | some (.expr e) => callsNameExpr funcName e

def callsNameExpr (funcName : String) : Expr → Bool
  | .lit _ => false
  | .ident _ => false
  | .member obj prop _ => callsNameExpr funcName obj || callsNameExpr funcName prop
  | .call callee args =>
      (match callee with
       | .ident n => n = funcName
       | _ => false) ||
      callsNameExpr funcName callee || callsNameExprList funcName args
  | .unary _ e => callsNameExpr funcName e
  | .update _ e => callsNameExpr funcName e
  | .assign _ l r => callsNameExpr funcName l || callsNameExpr funcName r
  | .binary _ l r => callsNameExpr funcName l || callsNameExpr funcName r
  | .cond t c alt =>
      callsNameExpr funcName t || callsNameExpr funcName c || callsNameExpr funcName alt
  | .arrow _ b _ => callsNameFuncBody funcName b
  | .funcExpr _ b _ => callsNameStmtList funcName b
  | .objectLit props => callsNamePropList funcName props
  | .arrayLit elems => callsNameExprList funcName elems
  | .awaitExpr e => callsNameExpr funcName e

def callsNameFuncBody (funcName : String) : FuncBody → Bool
  | .block stmts => callsNameStmtList funcName stmts
  | .expr e => callsNameExpr funcName e

def callsNameStmtOpt (funcName : String) : Option Stmt → Bool
  | none => false
  | some s => callsNameStmt funcName s

def callsNameExprOpt (funcName : String) : Option Expr → Bool
  | none => false
  | some e => callsNameExpr funcName e

def callsNameStmtList (funcName : String) : List Stmt → Bool
  | [] => false
  | s :: rest => callsNameStmt funcName s || callsNameStmtList funcName rest

def callsNameExprList (funcName : String) : List Expr → Bool
  | [] => false
  | e :: rest => callsNameExpr funcName e || callsNameExprList funcName rest

def callsNamePropList (funcName : String) : List (PropKey × Expr) → Bool
  | [] => false
  | p :: rest => callsNameExpr funcName p.2 || callsNamePropList funcName rest

def callsNameDeclList (funcName : String) : List (String × Option Expr) → Bool
  | [] => false
  | d :: rest => callsNameExprOpt funcName d.2 || callsNameDeclList funcName rest
end

/-- isRecursive: a function is recursive when its body contains a call
to its own name. -/
def isRecursive (funcName : String) (body : FuncBody) : Bool :=
  callsNameFuncBody funcName body

/-- Pass C of astToScratchBlocks: mark recursive functions and remove
every function name and every function parameter name from the vars
set, iterating functionDefinitions in insertion order. -/
def detectRecursionAndCleanup (a : Analysis) : Analysis :=
  a.functionDefinitions.foldl
    (fun acc nfd =>
      let acc :=
        if isRecursive nfd.1 nfd.2.body then
          { acc with recursiveFunctions := setAdd acc.recursiveFunctions nfd.1 }
        else acc
      let acc := { acc with vars := setDelete acc.vars nfd.1 }
      nfd.2.params.foldl
        (fun acc p => { acc with vars := setDelete acc.vars p }) acc)
    a

/-- The three analysis passes run in order on a program. -/
def analyzeProgram (prog : Program) : Analysis :=
  detectRecursionAndCleanup (refsStmtList (collectStmtList {} prog) prog)

/-- Errors aborting a compilation: the feature gate throwing an
UnsupportedFeatureError, a thrown JavaScript Error carrying a message,
or exhaustion of the inlining fuel (modelling nontermination of the
JavaScript on mutually recursive inlinable functions). -/
inductive CompErr where
  | unsupportedFeature (name : String)
  | jsError (msg : String)
  | fuelExhausted
  deriving DecidableEq, Repr

/-- Mutable state of astToScratchBlocks during block lowering: the block
store, the fresh-id counter and the variables set (analyzeForLoop adds
loop variables to it during lowering). -/
structure ConvState where
  blocks : BlockStore := []
  counter : Nat := 0
  -- the JavaScript variables set (vars because variables is reserved here)
  vars : List String := []
  deriving DecidableEq, Repr

/-- State-and-exception monad of the lowering functions. -/
def TransM (α : Type) : Type := ConvState → Except CompErr (α × ConvState)

instance : Monad TransM where
  pure a := fun s => .ok (a, s)
  bind x f := fun s =>
    match x s with
    | .ok (a, s') => f a s'
    | .error e => .error e

/-- generateBlockId: return the current counter value and bump it. -/
def freshId : TransM Nat :=
  fun s => .ok (s.counter, { s with counter := s.counter + 1 })

/-- Store a block under a (fresh) id, keeping insertion order. -/
def addBlock (id : Nat) (b : Block) : TransM Unit :=
  fun s => .ok ((), { s with blocks := s.blocks ++ [(id, b)] })

/-- Mutate the block stored under an existing id. -/
def modifyBlock (id : Nat) (f : Block → Block) : TransM Unit :=
  fun s =>
    .ok ((), { s with
               blocks := s.blocks.map (fun kb => if kb.1 = id then (kb.1, f kb.2) else kb) })

/-- Read the current block store. -/
def getBlocksM : TransM BlockStore :=
  fun s => .ok (s.blocks, s)

/-- variables.add during lowering (loop variables). -/
def addVarM (n : String) : TransM Unit :=
  fun s => .ok ((), { s with vars := setAdd s.vars n })

/-- Throw. -/
def throwErr {α : Type} (e : CompErr) : TransM α := fun _ => .error e

/-- Lift a pure Except computation. -/
def liftE {α : Type} (x : Except CompErr α) : TransM α :=
  fun s => match x with
  | .ok a => .ok (a, s)
  | .error e => .error e

/-- Replace the value of one input slot of a block (JavaScript
blocks[id].inputs.NAME = v). -/
def setBlockInput (name : String) (v : Option Input) (b : Block) : Block :=
  { b with inputs := mapSet b.inputs name v }

/-- getBinaryOperatorOpcode: the operator table; unmapped operators throw
an Error whose message names the operator. -/
def getBinaryOperatorOpcode (op : String) : Except CompErr String :=
  if op == "+" then .ok "operator_add"
  else if op == "-" then .ok "operator_subtract"
  else if op == "*" then .ok "operator_multiply"
  else if op == "/" then .ok "operator_divide"
  else if op == "<" then .ok "operator_lt"
  else if op == ">" then .ok "operator_gt"
  else if op == "==" || op == "===" then .ok "operator_equals"
  else .error (.jsError ("Unsupported binary operator: " ++ op))

/-- The comparison-operator dual used by negateExpression. -/
def negatedOperator (op : String) : Option String :=
  if op == "<" then some ">="
  else if op == ">" then some "<="
  else if op == "<=" then some ">"
  else if op == ">=" then some "<"
  else if op == "==" then some "!="
  else if op == "===" then some "!=="
  else if op == "!=" then some "=="
  else if op == "!==" then some "==="
  else none

/-- negateExpression: comparison operators are replaced by their dual,
everything else is wrapped in a prefix not. -/
def negateExpression (e : Expr) : Expr :=
  match e with
  | .binary op l r =>
      match negatedOperator op with
      | some nop => .binary nop l r
      | none => .unary "!" (.binary op l r)
  | _ => .unary "!" e

mutual
/-- substituteParameters: replace every identifier bound in the parameter
map by the corresponding argument expression, recursing into all
children.  (The JavaScript replaces generic Identifier child nodes; in
this typed model declarator and parameter name strings are not
expression positions and stay untouched.) -/
def substExpr (m : List (String × Expr)) : Expr → Expr
  | .lit v => .lit v
  | .ident n =>
      match lookupStr m n with
      | some rep => rep
      | none => .ident n
  | .member obj prop computed => .member (substExpr m obj) (substExpr m prop) computed
  | .call callee args => .call (substExpr m callee) (substExprList m args)
  | .unary op e => .unary op (substExpr m e)
  | .update op e => .update op (substExpr m e)
  | .assign op l r => .assign op (substExpr m l) (substExpr m r)
  | .binary op l r => .binary op (substExpr m l) (substExpr m r)
  | .cond t c alt => .cond (substExpr m t) (substExpr m c) (substExpr m alt)
  | .arrow ps b async => .arrow ps (substFuncBody m b) async
  | .funcExpr ps b async => .funcExpr ps (substStmtList m b) async
  | .objectLit props => .objectLit (substPropList m props)
  | .arrayLit elems => .arrayLit (substExprList m elems)
  | .awaitExpr e => .awaitExpr (substExpr m e)

def substFuncBody (m : List (String × Expr)) : FuncBody → FuncBody
  | .block stmts => .block (substStmtList m stmts)
  | .expr e => .expr (substExpr m e)

def substStmt (m : List (String × Expr)) : Stmt → Stmt
  | .varDecl decls => .varDecl (substDeclList m decls)
  | .funcDecl name ps body async => .funcDecl name ps (substStmtList m body) async
  | .exprStmt e => .exprStmt (substExpr m e)
  | .ifStmt t c alt => .ifStmt (substExpr m t) (substStmt m c) (substStmtOpt m alt)
  | .whileStmt t b => .whileStmt (substExpr m t) (substStmt m b)
  | .forStmt finit t u b =>
      .forStmt (substForInit m finit) (substExprOpt m t) (substExprOpt m u) (substStmt m b)
  | .blockStmt body => .blockStmt (substStmtList m body)
  | .returnStmt arg => .returnStmt (substExprOpt m arg)
  | .emptyStmt => .emptyStmt

def substForInit (m : List (String × Expr)) : Option ForInit → Option ForInit
  | none => none
  | some (.decl decls) => some (.decl (substDeclList m decls))
  | some (.expr e) => some (.expr (substExpr m e))

def substStmtOpt (m : List (String × Expr)) : Option Stmt → Option Stmt
  | none => none
  | some s => some (substStmt m s)

def substExprOpt (m : List (String × Expr)) : Option Expr → Option Expr
  | none => none
  | some e => some (substExpr m e)

def substStmtList (m : List (String × Expr)) : List Stmt → List Stmt
  | [] => []
  | s :: rest => substStmt m s :: substStmtList m rest

def substExprList (m : List (String × Expr)) : List Expr → List Expr
  | [] => []
  | e :: rest => substExpr m e :: substExprList m rest

def substPropList (m : List (String × Expr)) : List (PropKey × Expr) → List (PropKey × Expr)
  | [] => []
  | p :: rest => (p.1, substExpr m p.2) :: substPropList m rest

def substDeclList (m : List (String × Expr)) : List (String × Option Expr) → List (String × Option Expr)
  | [] => []
  | d :: rest => (d.1, substExprOpt m d.2) :: substDeclList m rest
end

/-- The inlining parameter map: parameters are bound positionally to
argument expressions, missing arguments default to the numeric literal 0. -/
def buildParamMap : List String → List Expr → List (String × Expr)
  | [], _ => []
  | p :: ps, [] => (p, .lit (.num 0)) :: buildParamMap ps []
  | p :: ps, e :: es => (p, e) :: buildParamMap ps es

/-- Extract the expression an inlined call evaluates to: the bare body of
an expression-bodied arrow, or the argument of the first return statement
of a block body (none when there is no return or it has no argument). -/
def extractInlineBody : FuncBody → Option Expr
  | .expr e => some e
  | .block stmts =>
      match stmts.find? (fun s => match s with | .returnStmt _ => true | _ => false) with
      | some (.returnStmt (some arg)) => some arg
      | _ => none

/-- Result of analyzeForLoop. -/
structure ForAnalysis where
  initVar : Option String := none
  initValue : Option Expr := none
  condition : Option Expr := none
  updt : Option Expr := none
  simple : Bool := false
  deriving Repr

/-- analyzeForLoop: extract the loop variable and classify the loop as
simple (for lv = start; lv rel end; lv++ with rel < or <=) or complex.
The loop variable is added to the variables set as a side effect.  An
expression-form init never matches the ExpressionStatement type test in
the source, so it yields no loop variable. -/
def analyzeForLoop (finit : Option ForInit) (test : Option Expr) (updt : Option Expr) :
    TransM ForAnalysis := do
  let iv ←
    match finit with
    | some (.decl ((name, dinit) :: _)) => do
        addVarM name
        pure (some (name, dinit))
    | _ => pure none
  let initVar := iv.map (fun p => p.1)
  let initValue := match iv with
                   | some p => p.2
                   | none => none
  let simple :=
    match initVar, test, updt with
    | some v, some (.binary op (.ident lname) _), some u =>
        if lname == v then
          let simpleUpdate :=
            match u with
            | .update uop (.ident un) => uop == "++" && un == v
            | .assign aop (.ident un) (.lit (.num k)) => aop == "+=" && un == v && k == 1
            | _ => false
          simpleUpdate && (op == "<" || op == "<=")
        else false
    | _, _, _ => false
  pure { initVar := initVar, initValue := initValue, condition := test,
         updt := updt, simple := simple }

/-- Walk the next chain from a block to its last element (the JavaScript
while loop over blocks[current].next). -/
def findLastInChain (fuel : Nat) (id : Nat) : TransM Nat :=
  match fuel with
  | 0 => pure id
  | fuel + 1 => do
    let bs ← getBlocksM
    match lookupBlock bs id with
    | some b =>
        match b.next with
        | some nxt => findLastInChain fuel nxt
        | none => pure id
    | none => pure id

/-- The mutually recursive lowering functions of astToScratchBlocks,
packed in one record so that the fuel recursion can be taken by a plain
Nat recursor (which the kernel evaluates efficiently).  The fields are,
in order: convertExpressionToInput, the BinaryExpression continuation,
the two operand encoders, the procedures_call input builder, convertNode
on statements, convertNode on expression nodes in statement position,
the procedure-body chain, the BlockStatement chain,
convertComplexForLoop, the for-init conversion, the Program case and
its top-level statement loop. -/
structure ConvertFns where
  exprToInput : Analysis → Option Expr → Option Nat → TransM Input
  lowerBin : Analysis → String → Bool → Expr → Expr → Option Nat → TransM Input
  compOperand : Analysis → Bool → Expr → Nat → TransM Input
  arithOperand : Analysis → Expr → Nat → TransM Input
  procCallInputs : Analysis → Nat → List String → List Expr →
    TransM (List (String × Option Input))
  node : Analysis → Stmt → Option Nat → TransM (Option Nat)
  nodeExpr : Analysis → Expr → Option Nat → TransM (Option Nat)
  procBody : Analysis → List Stmt → Nat → Option Nat → Option Nat → TransM (Option Nat)
  stmtSeq : Analysis → List Stmt → Option Nat → Option Nat → TransM (Option Nat)
  complexFor : Analysis → Option ForInit → Option Expr → Stmt → ForAnalysis →
    Option Nat → TransM (Option Nat)
  forInit : Analysis → ForInit → Option Nat → TransM (Option Nat)
  program : Analysis → List Stmt → TransM Unit
  topStmts : Analysis → List Stmt → Option Nat → Option Nat →
    TransM (Option Nat × Option Nat)

/-- Out of fuel: every lowering function throws. -/
def convertFnsZero : ConvertFns where
  exprToInput := fun _ _ _ => throwErr .fuelExhausted
  lowerBin := fun _ _ _ _ _ _ => throwErr .fuelExhausted
  compOperand := fun _ _ _ _ => throwErr .fuelExhausted
  arithOperand := fun _ _ _ => throwErr .fuelExhausted
  procCallInputs := fun _ _ _ _ => throwErr .fuelExhausted
  node := fun _ _ _ => throwErr .fuelExhausted
  nodeExpr := fun _ _ _ => throwErr .fuelExhausted
  procBody := fun _ _ _ _ _ => throwErr .fuelExhausted
  stmtSeq := fun _ _ _ _ => throwErr .fuelExhausted
  complexFor := fun _ _ _ _ _ _ => throwErr .fuelExhausted
  forInit := fun _ _ _ => throwErr .fuelExhausted
  program := fun _ _ => throwErr .fuelExhausted
  topStmts := fun _ _ _ _ => throwErr .fuelExhausted

/-- One fuel level of the lowering functions; recursive calls go to the
previous level prev, n is the previous fuel value (used by the
next-chain walk). -/
def convertFnsStep (n : Nat) (prev : ConvertFns) : ConvertFns where
  exprToInput := fun a expr parentBlockId =>
    match expr with
    | none => pure (.literalShadow (.text "0"))
    | some e =>
      match e with
      | .lit (.num n) => pure (.literalShadow (.num (toString n)))
      | .lit v => pure (.literalShadow (.text (litToJsStringOrEmpty v)))
      | .ident x => pure (.blockWithShadow (.varReporter x) (.text ""))
      | .member obj prop computed =>
          match obj with
          | .ident objName =>
              let isLength :=
                !computed && (match prop with | .ident pn => pn == "length" | _ => false)
              if a.lists.contains objName && isLength then do
                let lengthBlockId ← freshId
                addBlock lengthBlockId
                  { opcode := "data_lengthoflist", parent := parentBlockId,
                    fields := [("LIST", (objName, some objName))] }
                pure (.blockOnly (.blockRef (some lengthBlockId)))
              else if a.lists.contains objName && computed then do
                let itemBlockId ← freshId
                let idx ← prev.exprToInput a (some prop) (some itemBlockId)
                addBlock itemBlockId
                  { opcode := "data_itemoflist", parent := parentBlockId,
                    inputs := [("INDEX", some idx)],
                    fields := [("LIST", (objName, some objName))] }
                pure (.blockOnly (.blockRef (some itemBlockId)))
              else
                match lookupStr a.objectMappings objName with
                | some _ =>
                    let propName :=
                      if !computed then
                        match prop with | .ident pn => some pn | _ => none
                      else
                        match prop with | .lit (.str s) => some s | _ => none
                    match propName with
                    | some pn =>
                        let flatName := objName ++ "_" ++ pn
                        pure (.blockWithShadow (.varReporter flatName) (.text ""))
                    | none => pure (.literalShadow (.text "0"))
                | none => pure (.literalShadow (.text "0"))
          | _ => pure (.literalShadow (.text "0"))
      | .call callee args =>
          match callee with
          | .ident funcName =>
              if a.recursiveFunctions.contains funcName then do
                let callBlockId ← freshId
                let paramIds :=
                  match lookupStr a.functionDefinitions funcName with
                  | some fd => fd.params
                  | none => []
                let inputs ← prev.procCallInputs a callBlockId paramIds args
                addBlock callBlockId
                  { opcode := "procedures_call", parent := parentBlockId,
                    inputs := inputs,
                    mutation := some { proccode := some funcName,
                                       argumentids := some (jsonStringifyStrings paramIds),
                                       warp := some "false" } }
                pure (.blockOnly (.blockRef (some callBlockId)))
              else
                match lookupStr a.functionDefinitions funcName with
                | some fd =>
                    let paramMap := buildParamMap fd.params args
                    match extractInlineBody fd.body with
                    | some bodyExpr =>
                        prev.exprToInput a
                          (some (substExpr paramMap bodyExpr)) parentBlockId
                    | none => pure (.literalShadow (.num "0"))
                | none => pure (.literalShadow (.text "0"))
          | _ => pure (.literalShadow (.text "0"))
      | .unary op arg =>
          if op == "!" then do
            let notBlockId ← freshId
            let operandInput ← prev.exprToInput a (some arg) (some notBlockId)
            addBlock notBlockId
              { opcode := "operator_not", parent := parentBlockId,
                inputs := [("OPERAND", some operandInput)] }
            pure (.blockOnly (.blockRef (some notBlockId)))
          else pure (.literalShadow (.text "0"))
      | .binary op l r =>
          let pair :=
            if op == "!=" || op == "!==" then ("==", true)
            else if op == "<=" then (">", true)
            else if op == ">=" then ("<", true)
            else (op, false)
          prev.lowerBin a pair.1 pair.2 l r parentBlockId
      | _ => pure (.literalShadow (.text "0"))
  lowerBin := fun a actualOp shouldNegate l r parentBlockId => do
    let opcode ← liftE (getBinaryOperatorOpcode actualOp)
    let opBlockId ← freshId
    let isComparison :=
      actualOp == "<" || actualOp == ">" || actualOp == "==" || actualOp == "==="
    let isGreater := actualOp == ">"
    let leftFinal ←
      if isComparison then prev.compOperand a isGreater l opBlockId
      else prev.arithOperand a l opBlockId
    let rightFinal ←
      if isComparison then prev.compOperand a false r opBlockId
      else prev.arithOperand a r opBlockId
    addBlock opBlockId
      { opcode := opcode, parent := parentBlockId,
        inputs :=
          if isComparison then
            [("OPERAND1", some leftFinal), ("OPERAND2", some rightFinal)]
          else
            [("NUM1", some leftFinal), ("NUM2", some rightFinal)] }
    if shouldNegate then do
      let notBlockId ← freshId
      addBlock notBlockId
        { opcode := "operator_not", parent := parentBlockId,
          inputs := [("OPERAND", some (.blockOnly (.blockRef (some opBlockId))))] }
      pure (.blockOnly (.blockRef (some notBlockId)))
    else
      pure (.blockOnly (.blockRef (some opBlockId)))
  compOperand := fun a gtLeft e opBlockId =>
    match e with
    | .ident n =>
        if gtLeft then pure (.blockWithShadow (.varReporter n) (.text ""))
        else pure (.blockOnly (.varReporter n))
    | .lit v => pure (.literalShadow (.text (litToJsString v)))
    | _ => prev.exprToInput a (some e) (some opBlockId)
  arithOperand := fun a e opBlockId =>
    match e with
    | .ident n => pure (.blockWithShadow (.varReporter n) (.num ""))
    | _ => prev.exprToInput a (some e) (some opBlockId)
  procCallInputs := fun a callBlockId ps args =>
    match ps, args with
    | [], _ => pure []
    | p :: ps, [] => do
        let rest ← prev.procCallInputs a callBlockId ps []
        pure ((p, some (.literalShadow (.num "0"))) :: rest)
    | p :: ps, arg :: restArgs => do
        let v ← prev.exprToInput a (some arg) (some callBlockId)
        let rest ← prev.procCallInputs a callBlockId ps restArgs
        pure ((p, some v) :: rest)
  node := fun a stmt parentId => do
    let blockId ← freshId
    match stmt with
    | .varDecl decls =>
        match decls with
        | [] => pure (some blockId)
        | (name, dinit) :: _ =>
          match dinit with
          | some (.arrow _ _ _) => pure none
          | some (.funcExpr _ _ _) => pure none
          | some (.arrayLit _) => pure none
          | _ => do
              let v ←
                match dinit with
                | some ie => prev.exprToInput a (some ie) (some blockId)
                | none => pure (.literalShadow (.text "0"))
              addBlock blockId
                { opcode := "data_setvariableto", parent := parentId,
                  inputs := [("VALUE", some v)],
                  fields := [("VARIABLE", (name, some name))] }
              pure (some blockId)
    | .funcDecl name params body _ =>
        if a.recursiveFunctions.contains name then do
          let procBlockId ← freshId
          addBlock procBlockId
            { opcode := "procedures_definition", parent := parentId,
              topLevel := true,
              mutation := some { proccode := some name,
                                 argumentids := some (jsonStringifyStrings params),
                                 warp := some "false" } }
          let bodyStart ← prev.procBody a body procBlockId none none
          match bodyStart with
          | some b => do
              modifyBlock procBlockId (fun bl => { bl with next := some b })
              modifyBlock b (fun bl => { bl with parent := some procBlockId })
          | none => pure ()
          pure (some procBlockId)
        else pure none
    | .exprStmt e => prev.nodeExpr a e parentId
    | .ifStmt test consequent _alt => do
        let c ← prev.exprToInput a (some test) (some blockId)
        let sub ← prev.node a consequent (some blockId)
        addBlock blockId
          { opcode := "control_if", parent := parentId,
            inputs := [("CONDITION", some c),
                       ("SUBSTACK", some (.blockOnly (.blockRef sub)))] }
        pure (some blockId)
    | .whileStmt test body => do
        let c ← prev.exprToInput a (some (negateExpression test)) (some blockId)
        let sub ← prev.node a body (some blockId)
        addBlock blockId
          { opcode := "control_repeat_until", parent := parentId,
            inputs := [("CONDITION", some c),
                       ("SUBSTACK", some (.blockOnly (.blockRef sub)))] }
        pure (some blockId)
    | .forStmt finit test updt body => do
        let fa ← analyzeForLoop finit test updt
        if fa.simple && fa.initVar.isSome && fa.condition.isSome then
          match fa.initVar, fa.condition with
          | some iv, some (.binary cop _ endExpr) =>
              if cop == "<" || cop == "<=" then do
                let initBlockId ← freshId
                let v ← prev.exprToInput a fa.initValue (some initBlockId)
                addBlock initBlockId
                  { opcode := "data_setvariableto", parent := parentId,
                    inputs := [("VALUE", some v)],
                    fields := [("VARIABLE", (iv, some iv))] }
                let times ←
                  match fa.initValue with
                  | some st =>
                      if cop == "<" then
                        prev.exprToInput a
                          (some (.binary "-" endExpr st)) (some blockId)
                      else
                        prev.exprToInput a
                          (some (.binary "+" (.binary "-" endExpr st) (.lit (.num 1))))
                          (some blockId)
                  | none =>
                      -- the JavaScript dereferences the null init value and
                      -- crashes with a TypeError caught by the caller
                      throwErr (.jsError "Cannot read properties of null")
                addBlock blockId
                  { opcode := "control_repeat", parent := some initBlockId,
                    inputs := [("TIMES", some times), ("SUBSTACK", none)] }
                let bodyStart ← prev.node a body (some blockId)
                let incrementBlockId ← freshId
                let incrementExpr :=
                  match fa.updt with
                  | some (.update uop _) =>
                      if uop == "++" then
                        Expr.binary "+" (.ident iv) (.lit (.num 1))
                      else (fa.updt.getD (.lit (.num 0)))
                  | some (.assign aop _ r) =>
                      if aop == "+=" then Expr.binary "+" (.ident iv) r
                      else (fa.updt.getD (.lit (.num 0)))
                  | some u => u
                  | none => .lit (.num 0)
                let incv ← prev.exprToInput a (some incrementExpr)
                  (some incrementBlockId)
                addBlock incrementBlockId
                  { opcode := "data_setvariableto",
                    parent := (match bodyStart with
                               | some b => some b
                               | none => some blockId),
                    inputs := [("VALUE", some incv)],
                    fields := [("VARIABLE", (iv, some iv))] }
                modifyBlock initBlockId (fun bl => { bl with next := some blockId })
                match bodyStart with
                | some bs => do
                    let lastBody ← findLastInChain n bs
                    modifyBlock lastBody (fun bl => { bl with next := some incrementBlockId })
                    modifyBlock incrementBlockId (fun bl => { bl with parent := some lastBody })
                    modifyBlock blockId
                      (setBlockInput "SUBSTACK" (some (.blockOnly (.blockRef (some bs)))))
                | none => do
                    modifyBlock blockId
                      (setBlockInput "SUBSTACK"
                        (some (.blockOnly (.blockRef (some incrementBlockId)))))
                    modifyBlock incrementBlockId (fun bl => { bl with parent := some blockId })
                pure (some initBlockId)
              else
                prev.complexFor a finit updt body fa parentId
          | _, _ => prev.complexFor a finit updt body fa parentId
        else
          prev.complexFor a finit updt body fa parentId
    | .blockStmt body => prev.stmtSeq a body parentId none
    | .returnStmt _ => pure none
    | .emptyStmt => pure none
  nodeExpr := fun a e parentId => do
    let blockId ← freshId
    match e with
    | .assign op lhs rhs =>
        if op == "=" then
          match lhs with
          | .ident name => do
              let v ← prev.exprToInput a (some rhs) (some blockId)
              addBlock blockId
                { opcode := "data_setvariableto", parent := parentId,
                  inputs := [("VALUE", some v)],
                  fields := [("VARIABLE", (name, some name))] }
              pure (some blockId)
          | .member (.ident mname) prop computed =>
              if computed && a.lists.contains mname then do
                let idx ← prev.exprToInput a (some prop) (some blockId)
                let item ← prev.exprToInput a (some rhs) (some blockId)
                addBlock blockId
                  { opcode := "data_replaceitemoflist", parent := parentId,
                    inputs := [("INDEX", some idx), ("ITEM", some item)],
                    fields := [("LIST", (mname, some mname))] }
                pure (some blockId)
              else
                match lookupStr a.objectMappings mname with
                | some _ =>
                    let propName :=
                      if !computed then
                        match prop with | .ident pn => some pn | _ => none
                      else
                        match prop with | .lit (.str s) => some s | _ => none
                    match propName with
                    | some pn => do
                        let flatName := mname ++ "_" ++ pn
                        let v ← prev.exprToInput a (some rhs) (some blockId)
                        addBlock blockId
                          { opcode := "data_setvariableto", parent := parentId,
                            inputs := [("VALUE", some v)],
                            fields := [("VARIABLE", (flatName, some flatName))] }
                        pure (some blockId)
                    | none => pure none
                | none => pure none
          | _ => pure none
        else pure none
    | .call callee args =>
        match callee with
        | .ident cname =>
            match args with
            | arg0 :: _ =>
                if cname == "scratch_say" then do
                  let msg ← prev.exprToInput a (some arg0) (some blockId)
                  addBlock blockId
                    { opcode := "looks_say", parent := parentId,
                      inputs := [("MESSAGE", some msg)] }
                  pure (some blockId)
                else pure none
            | [] => pure none
        | .member (.ident mname) prop _ =>
            let methodName := match prop with | .ident pn => some pn | _ => none
            if a.lists.contains mname then
              match methodName, args with
              | some "push", arg0 :: _ => do
                  let item ← prev.exprToInput a (some arg0) (some blockId)
                  addBlock blockId
                    { opcode := "data_addtolist", parent := parentId,
                      inputs := [("ITEM", some item)],
                      fields := [("LIST", (mname, some mname))] }
                  pure (some blockId)
              | some "pop", _ => do
                  let lengthBlockId ← freshId
                  addBlock lengthBlockId
                    { opcode := "data_lengthoflist", parent := some blockId,
                      fields := [("LIST", (mname, some mname))] }
                  addBlock blockId
                    { opcode := "data_deleteoflist", parent := parentId,
                      inputs := [("INDEX", some (.blockOnly (.blockRef (some lengthBlockId))))],
                      fields := [("LIST", (mname, some mname))] }
                  pure (some blockId)
              | _, _ => pure none
            else pure none
        | _ => pure none
    | _ => pure none
  procBody := fun a stmts procBlockId bodyStart prevStmt =>
    match stmts with
    | [] => pure bodyStart
    | s :: rest =>
      match s with
      | .returnStmt arg => do
          match arg with
          | some ae => do
              let _ ← prev.exprToInput a (some ae) (some procBlockId)
              pure ()
          | none => pure ()
          prev.procBody a rest procBlockId bodyStart prevStmt
      | _ => do
          let r ← prev.node a s (some procBlockId)
          match r with
          | some sid =>
              match prevStmt with
              | some p => do
                  modifyBlock p (fun bl => { bl with next := some sid })
                  modifyBlock sid (fun bl => { bl with parent := some p })
                  prev.procBody a rest procBlockId bodyStart (some sid)
              | none => prev.procBody a rest procBlockId (some sid) (some sid)
          | none => prev.procBody a rest procBlockId bodyStart prevStmt
  stmtSeq := fun a stmts parentId prevId =>
    match stmts with
    | [] => pure prevId
    | s :: rest => do
        let r ← prev.node a s parentId
        match r with
        | some sid => do
            match prevId with
            | some p => do
                modifyBlock p (fun bl => { bl with next := some sid })
                modifyBlock sid (fun bl => { bl with parent := some p })
            | none => pure ()
            prev.stmtSeq a rest parentId (some sid)
        | none => prev.stmtSeq a rest parentId prevId
  complexFor := fun a finit updt body fa parentId => do
    let initial ←
      match finit with
      | some fi => do
          let initBlockId ← prev.forInit a fi parentId
          match initBlockId with
          | some i => pure (some i, some i)
          | none => pure ((none : Option Nat), (none : Option Nat))
      | none => pure ((none : Option Nat), (none : Option Nat))
    let firstBlockId := initial.1
    let prevBlockId := initial.2
    let whileBlockId ← freshId
    let condExpr := negateExpression (fa.condition.getD (.lit (.bool true)))
    let c ← prev.exprToInput a (some condExpr) (some whileBlockId)
    addBlock whileBlockId
      { opcode := "control_repeat_until",
        parent := (match prevBlockId with | some p => some p | none => parentId),
        inputs := [("CONDITION", some c), ("SUBSTACK", none)] }
    let firstBlockId ←
      match prevBlockId with
      | some p => do
          modifyBlock p (fun bl => { bl with next := some whileBlockId })
          pure firstBlockId
      | none => pure (some whileBlockId)
    let bodyStart ← prev.node a body (some whileBlockId)
    let lastBody ←
      match bodyStart with
      | some bs => do
          let l ← findLastInChain n bs
          pure (some l)
      | none => pure none
    let updateId ←
      match updt with
      | some u =>
          prev.nodeExpr a u
            (match lastBody with | some l => some l | none => some whileBlockId)
      | none => pure none
    let bodyStart ←
      match updateId with
      | some uid =>
          match lastBody with
          | some l => do
              modifyBlock l (fun bl => { bl with next := some uid })
              pure bodyStart
          | none => pure (some uid)
      | none => pure bodyStart
    match bodyStart with
    | some bs =>
        modifyBlock whileBlockId
          (setBlockInput "SUBSTACK" (some (.blockOnly (.blockRef (some bs)))))
    | none => pure ()
    pure (match firstBlockId with | some f => some f | none => some whileBlockId)
  forInit := fun a fi parentId =>
    match fi with
    | .decl decls => prev.node a (.varDecl decls) parentId
    | .expr e => prev.nodeExpr a e parentId
  program := fun a stmts => do
    let _rootEntryId ← freshId
    let fp ← prev.topStmts a stmts none none
    match fp.1 with
    | some fb => do
        let eventBlockId ← freshId
        addBlock eventBlockId
          { opcode := "event_whenflagclicked", next := some fb, parent := none,
            topLevel := true }
        modifyBlock fb (fun bl => { bl with parent := some eventBlockId, topLevel := false })
    | none => pure ()
    match fp.2 with
    | some pb => do
        let stopBlockId ← freshId
        addBlock stopBlockId
          { opcode := "control_stop", parent := some pb,
            fields := [("STOP_OPTION", ("all", none))],
            mutation := some { hasnext := some "false" } }
        modifyBlock pb (fun bl => { bl with next := some stopBlockId })
    | none => pure ()
  topStmts := fun a stmts first prevb =>
    match stmts with
    | [] => pure (first, prevb)
    | s :: rest => do
        let r ← prev.node a s none
        match r with
        | some sid => do
            let first' := match first with | none => some sid | some f => some f
            match prevb with
            | some p => do
                modifyBlock p (fun bl => { bl with next := some sid })
                modifyBlock sid (fun bl => { bl with parent := some p, topLevel := false })
            | none => pure ()
            prev.topStmts a rest first' (some sid)
        | none => prev.topStmts a rest first prevb

/-- The lowering functions at a given fuel level. -/
def convertFnsAt : Nat → ConvertFns :=
  fun n => Nat.rec convertFnsZero (fun m prev => convertFnsStep m prev) n

/-- convertExpressionToInput: encode an expression into an input slot,
creating reporter blocks in the store as needed.  Fuel bounds the
inlining recursion. -/
def convertExpressionToInput (fuel : Nat) (a : Analysis) (expr : Option Expr)
    (parentBlockId : Option Nat) : TransM Input :=
  (convertFnsAt fuel).exprToInput a expr parentBlockId

/-- The continuation of the BinaryExpression branch after the negation
rewriting chose the actual operator and whether to wrap in not. -/
def lowerBinary (fuel : Nat) (a : Analysis) (actualOp : String) (shouldNegate : Bool)
    (l r : Expr) (parentBlockId : Option Nat) : TransM Input :=
  (convertFnsAt fuel).lowerBin a actualOp shouldNegate l r parentBlockId

/-- Comparison operand encoding: identifiers on the left of operator_gt
carry a text shadow, other identifier operands are bare reporters,
literals become text shadows, other expressions recurse. -/
def comparisonOperandInput (fuel : Nat) (a : Analysis) (gtLeft : Bool) (e : Expr)
    (opBlockId : Nat) : TransM Input :=
  (convertFnsAt fuel).compOperand a gtLeft e opBlockId

/-- Arithmetic operand encoding: identifiers become variable reporters
with an empty numeric shadow, other expressions recurse. -/
def arithmeticOperandInput (fuel : Nat) (a : Analysis) (e : Expr) (opBlockId : Nat) :
    TransM Input :=
  (convertFnsAt fuel).arithOperand a e opBlockId

/-- The inputs object of a procedures_call: parameters in order, bound to
the encoded arguments, missing arguments defaulting to a numeric 0
shadow. -/
def buildProcCallInputs (fuel : Nat) (a : Analysis) (callBlockId : Nat)
    (ps : List String) (args : List Expr) : TransM (List (String × Option Input)) :=
  (convertFnsAt fuel).procCallInputs a callBlockId ps args

/-- convertNode: lower one statement (or an expression appearing in
statement position) to blocks, returning the id of its entry block or
none when it lowers to nothing.  A fresh id is consumed on entry exactly
as the JavaScript does. -/
def convertNode (fuel : Nat) (a : Analysis) (stmt : Stmt) (parentId : Option Nat) :
    TransM (Option Nat) :=
  (convertFnsAt fuel).node a stmt parentId

/-- convertNode applied to an expression node in statement position
(an ExpressionStatement body, a for-loop init expression or update). -/
def convertNodeExpr (fuel : Nat) (a : Analysis) (e : Expr) (parentId : Option Nat) :
    TransM (Option Nat) :=
  (convertFnsAt fuel).nodeExpr a e parentId

/-- The body of a procedures_definition: statements are chained, return
statements contribute no block but their argument expression is still
encoded (its reporter blocks stay in the store). -/
def convertProcBody (fuel : Nat) (a : Analysis) (stmts : List Stmt) (procBlockId : Nat)
    (bodyStart prevStmt : Option Nat) : TransM (Option Nat) :=
  (convertFnsAt fuel).procBody a stmts procBlockId bodyStart prevStmt

/-- The statement chain of a BlockStatement; returns the id of the last
converted statement. -/
def convertStmtSeq (fuel : Nat) (a : Analysis) (stmts : List Stmt) (parentId : Option Nat)
    (prevId : Option Nat) : TransM (Option Nat) :=
  (convertFnsAt fuel).stmtSeq a stmts parentId prevId

/-- convertComplexForLoop: rewrite a general for loop into init plus a
repeat-until of the negated condition with the update appended to the
body. -/
def convertComplexForLoop (fuel : Nat) (a : Analysis) (finit : Option ForInit)
    (updt : Option Expr) (body : Stmt) (fa : ForAnalysis) (parentId : Option Nat) :
    TransM (Option Nat) :=
  (convertFnsAt fuel).complexFor a finit updt body fa parentId

/-- The init slot of a for statement converted in statement position. -/
def convertForInit (fuel : Nat) (a : Analysis) (fi : ForInit) (parentId : Option Nat) :
    TransM (Option Nat) :=
  (convertFnsAt fuel).forInit a fi parentId

/-- The Program case of convertNode: convert and chain the top-level
statements, prepend the event block, append the stop block. -/
def convertProgram (fuel : Nat) (a : Analysis) (stmts : List Stmt) : TransM Unit :=
  (convertFnsAt fuel).program a stmts

/-- The top-level statement loop of the Program case, tracking the first
and the previous emitted block. -/
def convertTopStmts (fuel : Nat) (a : Analysis) (stmts : List Stmt)
    (first prev : Option Nat) : TransM (Option Nat × Option Nat) :=
  (convertFnsAt fuel).topStmts a stmts first prev

/-- Result of astToScratchBlocks. -/
structure BlocksResult where
  blocks : BlockStore
  vars : List String
  lists : List String
  objectMappings : List (String × List String)
  deriving Repr

/-- Fuel used for whole-program compilation; consumption is bounded by
the nesting depth of the program and its inlining chains, which stays far
below this bound for every program considered here. -/
def compileFuel : Nat := 50

/-- astToScratchBlocks: the three analysis passes followed by the
recursive lowering from the Program node. -/
def astToScratchBlocks (prog : Program) : Except CompErr BlocksResult :=
  let a := analyzeProgram prog
  match convertProgram compileFuel a prog { blocks := [], counter := 0, vars := a.vars } with
  | .ok (_, s) =>
      .ok { blocks := s.blocks, vars := s.vars, lists := a.lists,
            objectMappings := a.objectMappings }
  | .error e => .error e

/-- The banned-feature list of the feature gate. -/
def UNSUPPORTED_FEATURES : List String :=
  ["window.location", "window.alert", "window.confirm", "window.prompt",
   "document.getElementById", "document.querySelector", "console.log",
   "localStorage", "sessionStorage", "fetch", "XMLHttpRequest",
   "setTimeout", "setInterval", "Promise", "async", "await"]

/-- getMemberExpressionString: dotted rendering of a member expression
chain; computed properties print as [computed], non-identifier pieces as
[unknown]. -/
def getMemberExpressionString : Expr → String
  | .ident n => n
  | .member obj prop computed =>
      getMemberExpressionString obj ++ "." ++
        (if computed then "[computed]"
         else
           match prop with
           | .ident pn => if pn == "" then "[unknown]" else pn
           | _ => "[unknown]")
  | _ => "[unknown]"

/-- The banned entries matched by one member-expression string: equality
or dotted-prefix match. -/
def memberMatches (memberStr : String) : List String :=
  UNSUPPORTED_FEATURES.filter
    (fun u => memberStr == u || memberStr.startsWith (u ++ "."))

mutual
/-- checkUnsupportedFeatures: walk the tree in pre-order, recording the
banned-list matches of every member expression, async on async function
nodes and await on await expressions. -/
def checkStmt : Stmt → List String
  | .varDecl decls => checkDeclList decls
  | .funcDecl _ _ body isAsync =>
      (if isAsync then ["async"] else []) ++ checkStmtList body
  | .exprStmt e => checkExpr e
  | .ifStmt t c alt => checkExpr t ++ checkStmt c ++ checkStmtOpt alt
  | .whileStmt t b => checkExpr t ++ checkStmt b
  | .forStmt finit t u b =>
      checkForInit finit ++ checkExprOpt t ++ checkExprOpt u ++ checkStmt b
  | .blockStmt body => checkStmtList body
  | .returnStmt arg => checkExprOpt arg
  | .emptyStmt => []

def checkForInit : Option ForInit → List String
  | none => []
  | some (.decl decls) => checkDeclList decls
  | some (.expr e) => checkExpr e

def checkExpr : Expr → List String
  | .lit _ => []
  | .ident _ => []
  | .member obj prop computed =>
      memberMatches (getMemberExpressionString (.member obj prop computed)) ++
        checkExpr obj ++ checkExpr prop
  | .call callee args => checkExpr callee ++ checkExprList args
  | .unary _ e => checkExpr e
  | .update _ e => checkExpr e
  | .assign _ l r => checkExpr l ++ checkExpr r
  | .binary _ l r => checkExpr l ++ checkExpr r
  | .cond t c alt => checkExpr t ++ checkExpr c ++ checkExpr alt
  | .arrow _ b isAsync => (if isAsync then ["async"] else []) ++ checkFuncBody b
  | .funcExpr _ b isAsync => (if isAsync then ["async"] else []) ++ checkStmtList b
  | .objectLit props => checkPropList props
  | .arrayLit elems => checkExprList elems
  | .awaitExpr e => ["await"] ++ checkExpr e

def checkFuncBody : FuncBody → List String
  | .block stmts => checkStmtList stmts
  | .expr e => checkExpr e

def checkStmtOpt : Option Stmt → List String
  | none => []
  | some s => checkStmt s

def checkExprOpt : Option Expr → List String
  | none => []
  | some e => checkExpr e

def checkStmtList : List Stmt → List String
  | [] => []
  | s :: rest => checkStmt s ++ checkStmtList rest

def checkExprList : List Expr → List String
  | [] => []
  | e :: rest => checkExpr e ++ checkExprList rest

def checkPropList : List (PropKey × Expr) → List String
  | [] => []
  | p :: rest => checkExpr p.2 ++ checkPropList rest

def checkDeclList : List (String × Option Expr) → List String
  | [] => []
  | d :: rest => checkExprOpt d.2 ++ checkDeclList rest
end

/-- checkUnsupportedFeatures on a whole program. -/
def checkUnsupportedFeatures (prog : Program) : List String :=
  checkStmtList prog

mutual
/-- gateCleanStmt and friends: the program property that the feature gate
finds nothing to report, namely every member expression misses the
banned list, no function node is async and there is no await
expression.  Bare identifiers are unconstrained. -/
def gateCleanStmt : Stmt → Bool
  | .varDecl decls => gateCleanDeclList decls
  | .funcDecl _ _ body isAsync => !isAsync && gateCleanStmtList body
  | .exprStmt e => gateCleanExpr e
  | .ifStmt t c alt => gateCleanExpr t && gateCleanStmt c && gateCleanStmtOpt alt
  | .whileStmt t b => gateCleanExpr t && gateCleanStmt b
  | .forStmt finit t u b =>
      gateCleanForInit finit && gateCleanExprOpt t && gateCleanExprOpt u && gateCleanStmt b
  | .blockStmt body => gateCleanStmtList body
  | .returnStmt arg => gateCleanExprOpt arg
  | .emptyStmt => true

def gateCleanForInit : Option ForInit → Bool
  | none => true
  | some (.decl decls) => gateCleanDeclList decls
  | some (.expr e) => gateCleanExpr e

def gateCleanExpr : Expr → Bool
  | .lit _ => true
  | .ident _ => true
  | .member obj prop computed =>
      (memberMatches (getMemberExpressionString (.member obj prop computed))).isEmpty &&
        gateCleanExpr obj && gateCleanExpr prop
  | .call callee args => gateCleanExpr callee && gateCleanExprList args
  | .unary _ e => gateCleanExpr e
  | .update _ e => gateCleanExpr e
  | .assign _ l r => gateCleanExpr l && gateCleanExpr r
  | .binary _ l r => gateCleanExpr l && gateCleanExpr r
  | .cond t c alt => gateCleanExpr t && gateCleanExpr c && gateCleanExpr alt
  | .arrow _ b isAsync => !isAsync && gateCleanFuncBody b
  | .funcExpr _ b isAsync => !isAsync && gateCleanStmtList b
  | .objectLit props => gateCleanPropList props
  | .arrayLit elems => gateCleanExprList elems
  | .awaitExpr _ => false

def gateCleanFuncBody : FuncBody → Bool
  | .block stmts => gateCleanStmtList stmts
  | .expr e => gateCleanExpr e

def gateCleanStmtOpt : Option Stmt → Bool
  | none => true
  | some s => gateCleanStmt s

def gateCleanExprOpt : Option Expr → Bool
  | none => true
  | some e => gateCleanExpr e

def gateCleanStmtList : List Stmt → Bool
  | [] => true
  | s :: rest => gateCleanStmt s && gateCleanStmtList rest

def gateCleanExprList : List Expr → Bool
  | [] => true
  | e :: rest => gateCleanExpr e && gateCleanExprList rest

def gateCleanPropList : List (PropKey × Expr) → Bool
  | [] => true
  | p :: rest => gateCleanExpr p.2 && gateCleanPropList rest

def gateCleanDeclList : List (String × Option Expr) → Bool
  | [] => true
  | d :: rest => gateCleanExprOpt d.2 && gateCleanDeclList rest
end

/-- Initial values gathered by collectInitialValues. -/
structure InitVals where
  arrays : List (String × List String) := []
  objects : List (String × List (String × Int)) := []
  deriving Repr

/-- One array initializer: stringified literal elements, non-literals
become the empty string. -/
def arrayElemStrings (elems : List Expr) : List String :=
  elems.map (fun e => match e with | .lit v => litToJsString v | _ => "")

/-- One object initializer: identifier or string-literal keys paired with
their numeric literal value or 0. -/
def objectPropValues (props : List (PropKey × Expr)) : List (String × Int) :=
  props.foldl
    (fun acc p =>
      match p.1 with
      | .id k => acc ++ [(k, match p.2 with | .lit (.num n) => n | _ => 0)]
      | .lit (.str k) => acc ++ [(k, match p.2 with | .lit (.num n) => n | _ => 0)]
      | _ => acc) []

/-- The declarator action of collectInitialValues. -/
def initValsDecl (iv : InitVals) (name : String) (dinit : Option Expr) : InitVals :=
  match dinit with
  | some (.arrayLit elems) =>
      { iv with arrays := mapSet iv.arrays name (arrayElemStrings elems) }
  | some (.objectLit props) =>
      { iv with objects := mapSet iv.objects name (objectPropValues props) }
  | _ => iv

mutual
/-- collectInitialValues: walk the tree recording array and object
initializer values of variable declarations. -/
def initValsStmt (iv : InitVals) : Stmt → InitVals
  | .varDecl decls =>
      let iv := decls.foldl (fun iv d => initValsDecl iv d.1 d.2) iv
      initValsDeclList iv decls
  | .funcDecl _ _ body _ => initValsStmtList iv body
  | .exprStmt e => initValsExpr iv e
  | .ifStmt t c alt =>
      let iv := initValsExpr iv t
      let iv := initValsStmt iv c
      initValsStmtOpt iv alt
  | .whileStmt t b =>
      let iv := initValsExpr iv t
      initValsStmt iv b
  | .forStmt finit t u b =>
      let iv := initValsForInit iv finit
      let iv := initValsExprOpt iv t
      let iv := initValsExprOpt iv u
      initValsStmt iv b
  | .blockStmt body => initValsStmtList iv body
  | .returnStmt arg => initValsExprOpt iv arg
  | .emptyStmt => iv

def initValsForInit (iv : InitVals) : Option ForInit → InitVals
  | none => iv
  | some (.decl decls) =>
      let iv := decls.foldl (fun iv d => initValsDecl iv d.1 d.2) iv
      initValsDeclList iv decls
  | some (.expr e) => initValsExpr iv e

def initValsExpr (iv : InitVals) : Expr → InitVals
  | .lit _ => iv
  | .ident _ => iv
  | .member obj prop _ =>
      let iv := initValsExpr iv obj
      initValsExpr iv prop
  | .call callee args =>
      let iv := initValsExpr iv callee
      initValsExprList iv args
  | .unary _ e => initValsExpr iv e
  | .update _ e => initValsExpr iv e
  | .assign _ l r =>
      let iv := initValsExpr iv l
      initValsExpr iv r
  | .binary _ l r =>
      let iv := initValsExpr iv l
      initValsExpr iv r
  | .cond t c alt =>
      let iv := initValsExpr iv t
      let iv := initValsExpr iv c
      initValsExpr iv alt
  | .arrow _ b _ => initValsFuncBody iv b
  | .funcExpr _ b _ => initValsStmtList iv b
  | .objectLit props => initValsPropList iv props
  | .arrayLit elems => initValsExprList iv elems
  | .awaitExpr e => initValsExpr iv e

def initValsFuncBody (iv : InitVals) : FuncBody → InitVals
  | .block stmts => initValsStmtList iv stmts
  | .expr e => initValsExpr iv e

def initValsStmtOpt (iv : InitVals) : Option Stmt → InitVals
  | none => iv
  | some s => initValsStmt iv s

def initValsExprOpt (iv : InitVals) : Option Expr → InitVals
  | none => iv
  | some e => initValsExpr iv e

def initValsStmtList (iv : InitVals) : List Stmt → InitVals
  | [] => iv
  | s :: rest => initValsStmtList (initValsStmt iv s) rest

def initValsExprList (iv : InitVals) : List Expr → InitVals
  | [] => iv
  | e :: rest => initValsExprList (initValsExpr iv e) rest

def initValsPropList (iv : InitVals) : List (PropKey × Expr) → InitVals
  | [] => iv
  | p :: rest => initValsPropList (initValsExpr iv p.2) rest

def initValsDeclList (iv : InitVals) : List (String × Option Expr) → InitVals
  | [] => iv
  | d :: rest => initValsDeclList (initValsExprOpt iv d.2) rest
end

/-- The sprite-relevant part of the emitted project: variables, lists,
block store and the visible flag (the stage, costumes, sounds and
metadata are fixed constants). -/
structure ScratchProject where
  spriteVariables : List (String × Int)
  spriteLists : List (String × List String)
  blocks : BlockStore
  visible : Bool
  deriving DecidableEq, Repr

/-- translateToScratch: gate, lower, then assemble the sprite data.
Errors out of astToScratchBlocks other than gate errors are re-wrapped
the way the JavaScript catch block rebuilds them. -/
def translateToScratch (prog : Program) : Except CompErr ScratchProject :=
  match checkUnsupportedFeatures prog with
  | f :: _ => .error (.unsupportedFeature f)
  | [] =>
    match astToScratchBlocks prog with
    | .error (.jsError m) => .error (.jsError ("Failed to parse JavaScript: " ++ m))
    | .error e => .error e
    | .ok r =>
        let iv := initValsStmtList {} prog
        let variablesObj := r.vars.foldl (fun acc n => acc ++ [(n, (0 : Int))]) []
        let listsObj := r.lists.map (fun n => (n, (lookupStr iv.arrays n).getD []))
        let variablesObj :=
          r.objectMappings.foldl
            (fun acc om =>
              let objValues := (lookupStr iv.objects om.1).getD []
              om.2.foldl
                (fun acc propName =>
                  objSet acc (om.1 ++ "_" ++ propName)
                    ((lookupStr objValues propName).getD 0))
                acc)
            variablesObj
        let hasCanvasText := r.blocks.any (fun kb => kb.2.opcode == "looks_say")
        .ok { spriteVariables := variablesObj, spriteLists := listsObj,
              blocks := r.blocks, visible := !hasCanvasText }

/-- Does a declarator initializer match document.getElementById(...) -/
def isGetElementByIdInit : Option Expr → Bool
  | some (.call (.member (.ident o) (.ident p) _) _) =>
      o == "document" && p == "getElementById"
  | _ => false

/-- Does a declarator initializer match canvasVar.getContext(...) or
canvas.getContext(...) -/
def isGetContextInit (canvasVars : List String) : Option Expr → Bool
  | some (.call (.member (.ident o) (.ident p) _) _) =>
      (canvasVars.contains o || o == "canvas") && p == "getContext"
  | _ => false

/-- Accumulator of the canvas-variable identification pass. -/
structure CanvasVars where
  canvasVars : List String := []
  canvasContextVars : List String := []
  deriving Repr

/-- The declarator action of identifyCanvasVars. -/
def canvasVarsDecl (cv : CanvasVars) (name : String) (dinit : Option Expr) : CanvasVars :=
  let cv :=
    if isGetElementByIdInit dinit then
      { cv with canvasVars := setAdd cv.canvasVars name }
    else cv
  if isGetContextInit cv.canvasVars dinit then
    { cv with canvasContextVars := setAdd cv.canvasContextVars name }
  else cv

mutual
/-- identifyCanvasVars: walk the tree collecting canvas-element bindings
(document.getElementById initializers) and canvas-context bindings
(getContext initializers on a canvas binding or on the name canvas). -/
def canvasVarsStmt (cv : CanvasVars) : Stmt → CanvasVars
  | .varDecl decls =>
      let cv := decls.foldl (fun cv d => canvasVarsDecl cv d.1 d.2) cv
      canvasVarsDeclList cv decls
  | .funcDecl _ _ body _ => canvasVarsStmtList cv body
  | .exprStmt e => canvasVarsExpr cv e
  | .ifStmt t c alt =>
      let cv := canvasVarsExpr cv t
      let cv := canvasVarsStmt cv c
      canvasVarsStmtOpt cv alt
  | .whileStmt t b =>
      let cv := canvasVarsExpr cv t
      canvasVarsStmt cv b
  | .forStmt finit t u b =>
      let cv := canvasVarsForInit cv finit
      let cv := canvasVarsExprOpt cv t
      let cv := canvasVarsExprOpt cv u
      canvasVarsStmt cv b
  | .blockStmt body => canvasVarsStmtList cv body
  | .returnStmt arg => canvasVarsExprOpt cv arg
  | .emptyStmt => cv

def canvasVarsForInit (cv : CanvasVars) : Option ForInit → CanvasVars
  | none => cv
  | some (.decl decls) =>
      let cv := decls.foldl (fun cv d => canvasVarsDecl cv d.1 d.2) cv
      canvasVarsDeclList cv decls
  | some (.expr e) => canvasVarsExpr cv e

def canvasVarsExpr (cv : CanvasVars) : Expr → CanvasVars
  | .lit _ => cv
  | .ident _ => cv
  | .member obj prop _ =>
      let cv := canvasVarsExpr cv obj
      canvasVarsExpr cv prop
  | .call callee args =>
      let cv := canvasVarsExpr cv callee
      canvasVarsExprList cv args
  | .unary _ e => canvasVarsExpr cv e
  | .update _ e => canvasVarsExpr cv e
  | .assign _ l r =>
      let cv := canvasVarsExpr cv l
      canvasVarsExpr cv r
  | .binary _ l r =>
      let cv := canvasVarsExpr cv l
      canvasVarsExpr cv r
  | .cond t c alt =>
      let cv := canvasVarsExpr cv t
      let cv := canvasVarsExpr cv c
      canvasVarsExpr cv alt
  | .arrow _ b _ => canvasVarsFuncBody cv b
  | .funcExpr _ b _ => canvasVarsStmtList cv b
  | .objectLit props => canvasVarsPropList cv props
  | .arrayLit elems => canvasVarsExprList cv elems
  | .awaitExpr e => canvasVarsExpr cv e

def canvasVarsFuncBody (cv : CanvasVars) : FuncBody → CanvasVars
  | .block stmts => canvasVarsStmtList cv stmts
  | .expr e => canvasVarsExpr cv e

def canvasVarsStmtOpt (cv : CanvasVars) : Option Stmt → CanvasVars
  | none => cv
  | some s => canvasVarsStmt cv s

def canvasVarsExprOpt (cv : CanvasVars) : Option Expr → CanvasVars
  | none => cv
  | some e => canvasVarsExpr cv e

def canvasVarsStmtList (cv : CanvasVars) : List Stmt → CanvasVars
  | [] => cv
  | s :: rest => canvasVarsStmtList (canvasVarsStmt cv s) rest

def canvasVarsExprList (cv : CanvasVars) : List Expr → CanvasVars
  | [] => cv
  | e :: rest => canvasVarsExprList (canvasVarsExpr cv e) rest

def canvasVarsPropList (cv : CanvasVars) : List (PropKey × Expr) → CanvasVars
  | [] => cv
  | p :: rest => canvasVarsPropList (canvasVarsExpr cv p.2) rest

def canvasVarsDeclList (cv : CanvasVars) : List (String × Option Expr) → CanvasVars
  | [] => cv
  | d :: rest => canvasVarsDeclList (canvasVarsExprOpt cv d.2) rest
end

/-- Accumulate decimal digits into a number. -/
def digitsToNat (ds : List Char) : Nat :=
  ds.foldl (fun acc c => acc * 10 + (c.toNat - '0'.toNat)) 0

/-- The regex match of digits immediately followed by px, as used on the
font property value. -/
def findPxNumber : List Char → List Char → Option Nat
  | [], _ => none
  | c :: rest, digits =>
      if c.isDigit then findPxNumber rest (digits ++ [c])
      else if c == 'p' then
        match rest with
        | 'x' :: _ =>
            if digits.isEmpty then findPxNumber rest [] else some (digitsToNat digits)
        | _ => findPxNumber rest []
      else findPxNumber rest []

/-- processNode of the canvas preprocessor: canvas bindings are removed,
fillStyle assignments become scratch_pen_color assignments, font
assignments with a px size become scratch_text_size assignments,
textAlign and textBaseline are removed, every other context property
assignment is removed; fillText and strokeText calls become scratch_say
calls, every other context method call is removed; all remaining
statements pass through. -/
def processNode (cv : CanvasVars) (stmt : Stmt) : Option Stmt :=
  match stmt with
  | .varDecl decls =>
      if decls.any (fun d => isGetElementByIdInit d.2) then none
      else if decls.any (fun d => isGetContextInit cv.canvasVars d.2) then none
      else some stmt
  | .exprStmt (.assign op lhs rhs) =>
      match lhs with
      | .member (.ident objName) prop _ =>
          if cv.canvasContextVars.contains objName then
            match prop with
            | .ident pn =>
                if pn == "fillStyle" then
                  some (.exprStmt (.assign "=" (.ident "scratch_pen_color") rhs))
                else if pn == "font" then
                  match rhs with
                  | .lit (.str s) =>
                      match findPxNumber s.toList [] with
                      | some n =>
                          some (.exprStmt (.assign "="
                            (.ident "scratch_text_size") (.lit (.num (Int.ofNat n)))))
                      | none => none
                  | _ => none
                else none
            | _ => none
          else some (.exprStmt (.assign op lhs rhs))
      | _ => some (.exprStmt (.assign op lhs rhs))
  | .exprStmt (.call callee args) =>
      match callee with
      | .member (.ident objName) prop _ =>
          if cv.canvasContextVars.contains objName then
            match prop with
            | .ident pn =>
                if (pn == "fillText" || pn == "strokeText") && !args.isEmpty then
                  some (.exprStmt (.call (.ident "scratch_say") args))
                else none
            | _ => none
          else some (.exprStmt (.call callee args))
      | _ => some (.exprStmt (.call callee args))
  | other => some other

/-- generateExpression of the canvas preprocessor code printer. -/
def generateExpression : Expr → String
  | .ident n => n
  | .lit (.str s) => "'" ++ s ++ "'"
  | .lit v => litToJsString v
  | .binary op l r => generateExpression l ++ " " ++ op ++ " " ++ generateExpression r
  | .member obj prop computed =>
      generateExpression obj ++
        (if computed then "[" ++ generateExpression prop ++ "]"
         else "." ++ (match prop with | .ident pn => pn | _ => "undefined"))
  | _ => ""

/-- generateCode of the canvas preprocessor: only assignment and call
expression statements print, everything else is dropped. -/
def generateCode (stmts : List Stmt) : String :=
  String.intercalate "\n"
    (stmts.filterMap (fun s =>
      match s with
      | .exprStmt (.assign _ l r) =>
          some (generateExpression l ++ " = " ++ generateExpression r ++ ";")
      | .exprStmt (.call callee args) =>
          some (generateExpression callee ++ "(" ++
            String.intercalate ", " (args.map generateExpression) ++ ");")
      | _ => none))

/-- transformCanvasToScratch on a parsed program: none models returning
the original source unchanged (no canvas bindings found); some gives the
regenerated source of the kept statements, the empty string when every
statement was removed. -/
def transformCanvasToScratch (prog : Program) : Option String :=
  let cv := canvasVarsStmtList {} prog
  if cv.canvasContextVars.isEmpty && cv.canvasVars.isEmpty then none
  else
    let transformed := prog.filterMap (processNode cv)
    some (if transformed.isEmpty then "" else generateCode transformed)

/-- The program: function fact(n) with an if-guarded base case and a
recursive return, followed by let r = fact(5). -/
def astFact : Program :=
  [.funcDecl "fact" ["n"]
     [.ifStmt (.binary "<=" (.ident "n") (.lit (.num 1)))
        (.returnStmt (some (.lit (.num 1)))) none,
      .returnStmt (some (.binary "*" (.ident "n")
        (.call (.ident "fact") [.binary "-" (.ident "n") (.lit (.num 1))])))]
     false,
   .varDecl [("r", some (.call (.ident "fact") [.lit (.num 5)]))]]

/-- The program: const f = (n) => n <= 1 ? 1 : f(n - 1); let x = f(2);
(a recursive function bound by an arrow-function variable declaration). -/
def astArrowRec : Program :=
  [.varDecl [("f", some (.arrow ["n"]
     (.expr (.cond (.binary "<=" (.ident "n") (.lit (.num 1)))
       (.lit (.num 1))
       (.call (.ident "f") [.binary "-" (.ident "n") (.lit (.num 1))]))) false))],
   .varDecl [("x", some (.call (.ident "f") [.lit (.num 2)]))]]

/-- The program: if (x > 0) { function f(n) { return f(n - 1); } }
(a recursive function declaration nested inside a block). -/
def astNestedRec : Program :=
  [.ifStmt (.binary ">" (.ident "x") (.lit (.num 0)))
     (.blockStmt [.funcDecl "f" ["n"]
        [.returnStmt (some (.call (.ident "f") [.binary "-" (.ident "n") (.lit (.num 1))]))]
        false])
     none]

/-- The program: let x = 1; let y = 2; if (x < y) {} while (x < y) {}
(control statements with empty bodies). -/
def astEmptyBodies : Program :=
  [.varDecl [("x", some (.lit (.num 1)))],
   .varDecl [("y", some (.lit (.num 2)))],
   .ifStmt (.binary "<" (.ident "x") (.ident "y")) (.blockStmt []) none,
   .whileStmt (.binary "<" (.ident "x") (.ident "y")) (.blockStmt [])]

/-- The program: let obj = \x7ba: 1, b: 2\x7d; -/
def astObj : Program :=
  [.varDecl [("obj", some (.objectLit [(.id "a", .lit (.num 1)), (.id "b", .lit (.num 2))]))]]

/-- The program: let x = 5 % 2; (unmapped binary operator in expression
position). -/
def astMod : Program :=
  [.varDecl [("x", some (.binary "%" (.lit (.num 5)) (.lit (.num 2))))]]

/-- The program: 5 % 2; (unmapped binary operator in statement
position). -/
def astModStmt : Program :=
  [.exprStmt (.binary "%" (.lit (.num 5)) (.lit (.num 2)))]

/-- The empty program. -/
def astEmpty : Program := []

/-- The program: function add(a, b) { return a + b; } (all statements
lower to nothing). -/
def astFuncOnly : Program :=
  [.funcDecl "add" ["a", "b"]
     [.returnStmt (some (.binary "+" (.ident "a") (.ident "b")))] false]

/-- The program: fetch('u'); (banned name as a bare identifier callee). -/
def astFetch : Program :=
  [.exprStmt (.call (.ident "fetch") [.lit (.str "u")])]

/-- The program: setTimeout(f, 0); (banned name as a bare identifier
callee). -/
def astSetTimeoutCall : Program :=
  [.exprStmt (.call (.ident "setTimeout") [.ident "f", .lit (.num 0)])]

/-- The program: let x = 5 % 2; fetch('u'); (a banned name occurring
only as a bare identifier, next to an unrelated unmapped operator). -/
def astFetchMod : Program :=
  [.varDecl [("x", some (.binary "%" (.lit (.num 5)) (.lit (.num 2))))],
   .exprStmt (.call (.ident "fetch") [.lit (.str "u")])]

/-- The program handed to the canvas preprocessor: a context binding
followed by strokeStyle and lineWidth assignments. -/
def astCanvas : Program :=
  [.varDecl [("ctx", some (.call (.member (.ident "canvas") (.ident "getContext") false)
     [.lit (.str "2d")]))],
   .exprStmt (.assign "=" (.member (.ident "ctx") (.ident "strokeStyle") false)
     (.lit (.str "blue"))),
   .exprStmt (.assign "=" (.member (.ident "ctx") (.ident "lineWidth") false)
     (.lit (.num 5)))]

/-- Number of blocks with a given opcode in a store. -/
def countOpcode (bs : BlockStore) (opc : String) : Nat :=
  (bs.filter (fun kb => kb.2.opcode == opc)).length

/-- Opcode and parent of every block marked top_level, in store order. -/
def topLevelEntries (bs : BlockStore) : List (String × Option Nat) :=
  (bs.filter (fun kb => kb.2.topLevel)).map (fun kb => (kb.2.opcode, kb.2.parent))

/-- Is there a procedures_definition whose proccode and argumentids agree
with the given call mutation. -/
def hasMatchingDefinition (bs : BlockStore) (callMutation : Option Mutation) : Bool :=
  bs.any (fun kd =>
    kd.2.opcode == "procedures_definition" &&
    (match kd.2.mutation, callMutation with
     | some md, some mc => md.proccode == mc.proccode && md.argumentids == mc.argumentids
     | _, _ => false))

/-- Does every procedures_call block of the store have a matching
procedures_definition (same proccode, same argumentids). -/
def everyCallHasMatchingDefinition (bs : BlockStore) : Bool :=
  bs.all (fun kb =>
    !(kb.2.opcode == "procedures_call") || hasMatchingDefinition bs kb.2.mutation)

/-- The block-reference operands of one input slot value ([2, _] or
[3, _, shadow] encodings whose operand slot is a block id rather than a
variable reporter). -/
def blockRefOperandsOfInput : Option Input → List (Option Nat)
  | some (.blockOnly (.blockRef oid)) => [oid]
  | some (.blockWithShadow (.blockRef oid) _) => [oid]
  | _ => []

/-- Every block-reference operand stored in any input of any block. -/
def blockRefOperands (bs : BlockStore) : List (Option Nat) :=
  bs.foldr
    (fun kb acc => kb.2.inputs.foldr (fun nv acc2 => blockRefOperandsOfInput nv.2 ++ acc2) acc)
    []

/-- Every block-reference operand is a non-null id of an existing block
(the literal reading of the block-reference invariant). -/
def allInputBlockIdsPresent (bs : BlockStore) : Bool :=
  (blockRefOperands bs).all
    (fun oid => match oid with
                | some i => (lookupBlock bs i).isSome
                | none => false)

/-- Every non-null block-reference operand is the id of an existing
block (null operands, as stored for empty substacks, are exempt). -/
def nonNullInputBlockIdsPresent (bs : BlockStore) : Bool :=
  (blockRefOperands bs).all
    (fun oid => match oid with
                | some i => (lookupBlock bs i).isSome
                | none => true)

/-- Count of null block-reference operands in the store. -/
def countNullBlockRefOperands (bs : BlockStore) : Nat :=
  ((blockRefOperands bs).filter (fun o => o.isNone)).length

/-- Does the sprite variables mapping contain the given key. -/
def spriteHasVariable (p : ScratchProject) (n : String) : Bool :=
  (lookupStr p.spriteVariables n).isSome

/-- The operator_not wrapper block produced by the negation-wrapping
comparison lowering: its single OPERAND input references the comparison
block. -/
def notWrapBlock (gid : Nat) (pid : Option Nat) : Block :=
  { opcode := "operator_not", parent := pid,
    inputs := [("OPERAND", some (.blockOnly (.blockRef (some gid))))] }

/-- Shape of a negation-wrapped comparison lowering: the store gained a
comparison block of the given opcode directly followed by an operator_not
block wrapping it, the returned encoding is [2, not-id], and the OPERAND1
and OPERAND2 slots hold exactly the comparison-operand encodings of the
left operand (with the operator_gt left-shadow flag) and of the right
operand, produced in sequence. -/
def wrappedComparisonShape (a : Analysis) (l r : Expr) (opc : String) (gtLeft : Bool)
    (pid : Option Nat) (inp : Input) (s' : ConvState) : Prop :=
  ∃ gid nid lf rf m s1 s2 s3,
    s'.blocks = s3.blocks ++
      [(gid, { opcode := opc, parent := pid,
               inputs := [("OPERAND1", some lf), ("OPERAND2", some rf)] }),
       (nid, notWrapBlock gid pid)] ∧
    inp = .blockOnly (.blockRef (some nid)) ∧
    comparisonOperandInput m a gtLeft l gid s1 = .ok (lf, s2) ∧
    comparisonOperandInput m a false r gid s2 = .ok (rf, s3)

/-- Shape of an unwrapped comparison lowering: the store gained the
comparison block last, the returned encoding is [2, op-id], and OPERAND1
and OPERAND2 hold exactly the comparison-operand encodings of the two
operands. -/
def plainComparisonShape (a : Analysis) (l r : Expr) (opc : String) (gtLeft : Bool)
    (pid : Option Nat) (inp : Input) (s' : ConvState) : Prop :=
  ∃ gid lf rf m s1 s2 s3,
    s'.blocks = s3.blocks ++
      [(gid, { opcode := opc, parent := pid,
               inputs := [("OPERAND1", some lf), ("OPERAND2", some rf)] })] ∧
    inp = .blockOnly (.blockRef (some gid)) ∧
    comparisonOperandInput m a gtLeft l gid s1 = .ok (lf, s2) ∧
    comparisonOperandInput m a false r gid s2 = .ok (rf, s3)

/-- Unfolding of one fuel level. -/
theorem convertFnsAt_succ (n : Nat) :
    convertFnsAt (n + 1) = convertFnsStep n (convertFnsAt n) := rfl

/-- Applying a bound computation to a state steps through the first
computation. -/
theorem TransM_bind_def {α β : Type} (x : TransM α) (f : α → TransM β) (s : ConvState) :
    (x >>= f) s =
      (match x s with
       | .ok (av, s') => f av s'
       | .error e => .error e) := rfl

/-- Applying a pure computation to a state. -/
theorem TransM_pure_def {α : Type} (av : α) (s : ConvState) :
    (pure av : TransM α) s = .ok (av, s) := rfl

/-- Negation-wrapped comparison lowering produces the wrapped shape for
any actual operator from the comparison set. -/
theorem lowerBinary_wrapped_shape
    (fuel : Nat) (a : Analysis) (actualOp opc : String)
    (hop : getBinaryOperatorOpcode actualOp = .ok opc)
    (hcomp : (actualOp == "<" || actualOp == ">" || actualOp == "==" || actualOp == "===") = true)
    (l r : Expr) (pid : Option Nat) (s s' : ConvState) (inp : Input)
    (h : lowerBinary fuel a actualOp true l r pid s = .ok (inp, s')) :
    wrappedComparisonShape a l r opc (actualOp == ">") pid inp s' := by
  cases fuel with
  | zero =>
      simp [lowerBinary, convertFnsAt, convertFnsZero, throwErr] at h
  | succ m =>
      simp only [lowerBinary, convertFnsAt_succ, convertFnsStep] at h
      simp only [TransM_bind_def, TransM_pure_def, liftE, hop, freshId, addBlock, hcomp,
        ite_true, if_true] at h
      split at h
      next lf s2 hL =>
        split at h
        next rf s3 hR =>
          simp only [Except.ok.injEq, Prod.mk.injEq] at h
          obtain ⟨hinp, hs⟩ := h
          refine ⟨s.counter, s3.counter, lf, rf, m, { s with counter := s.counter + 1 },
            s2, s3, ?_, hinp.symm, hL, hR⟩
          rw [← hs]
          simp [notWrapBlock, List.append_assoc]
        next e hR => simp at h
      next e hL => simp at h

/-- Unwrapped comparison lowering produces the plain shape for any
actual operator from the comparison set. -/
theorem lowerBinary_plain_shape
    (fuel : Nat) (a : Analysis) (actualOp opc : String)
    (hop : getBinaryOperatorOpcode actualOp = .ok opc)
    (hcomp : (actualOp == "<" || actualOp == ">" || actualOp == "==" || actualOp == "===") = true)
    (l r : Expr) (pid : Option Nat) (s s' : ConvState) (inp : Input)
    (h : lowerBinary fuel a actualOp false l r pid s = .ok (inp, s')) :
    plainComparisonShape a l r opc (actualOp == ">") pid inp s' := by
  cases fuel with
  | zero =>
      simp [lowerBinary, convertFnsAt, convertFnsZero, throwErr] at h
  | succ m =>
      simp only [lowerBinary, convertFnsAt_succ, convertFnsStep] at h
      simp only [TransM_bind_def, TransM_pure_def, liftE, hop, freshId, addBlock, hcomp,
        ite_true, if_true, Bool.false_eq_true, if_false, ite_false] at h
      split at h
      next lf s2 hL =>
        split at h
        next rf s3 hR =>
          simp only [Except.ok.injEq, Prod.mk.injEq] at h
          obtain ⟨hinp, hs⟩ := h
          refine ⟨s.counter, lf, rf, m, { s with counter := s.counter + 1 },
            s2, s3, ?_, hinp.symm, hL, hR⟩
          rw [← hs]
        next e hR => simp at h
      next e hL => simp at h

/-- C5: encode lowers a <= comparison to an operator_gt block wrapped in
an operator_not block (returning the [2, not-id] reference), >= to a
wrapped operator_lt, and != as well as !== to a wrapped operator_equals,
while <, >, == and === produce an unwrapped operator_lt, operator_gt and
operator_equals block, the operands being encoded into the OPERAND1 and
OPERAND2 input slots (provably the comparison-operand encodings of the
left and right operand expressions, computed in sequence).  Stated for
every pair of operand expressions, parent id and starting state for
which the encoding succeeds. -/
theorem C5_comparison_lowering :
    ∀ (fuel : Nat) (a : Analysis) (l r : Expr) (pid : Option Nat)
      (s s' : ConvState) (inp : Input),
      (convertExpressionToInput (fuel + 1) a (some (.binary "<=" l r)) pid s = .ok (inp, s') →
        wrappedComparisonShape a l r "operator_gt" true pid inp s') ∧
      (convertExpressionToInput (fuel + 1) a (some (.binary ">=" l r)) pid s = .ok (inp, s') →
        wrappedComparisonShape a l r "operator_lt" false pid inp s') ∧
      (convertExpressionToInput (fuel + 1) a (some (.binary "!=" l r)) pid s = .ok (inp, s') →
        wrappedComparisonShape a l r "operator_equals" false pid inp s') ∧
      (convertExpressionToInput (fuel + 1) a (some (.binary "!==" l r)) pid s = .ok (inp, s') →
        wrappedComparisonShape a l r "operator_equals" false pid inp s') ∧
      (convertExpressionToInput (fuel + 1) a (some (.binary "<" l r)) pid s = .ok (inp, s') →
        plainComparisonShape a l r "operator_lt" false pid inp s') ∧
      (convertExpressionToInput (fuel + 1) a (some (.binary ">" l r)) pid s = .ok (inp, s') →
        plainComparisonShape a l r "operator_gt" true pid inp s') ∧
      (convertExpressionToInput (fuel + 1) a (some (.binary "==" l r)) pid s = .ok (inp, s') →
        plainComparisonShape a l r "operator_equals" false pid inp s') ∧
      (convertExpressionToInput (fuel + 1) a (some (.binary "===" l r)) pid s = .ok (inp, s') →
        plainComparisonShape a l r "operator_equals" false pid inp s') := by
  intro fuel a l r pid s s' inp
  refine ⟨fun h => ?_, fun h => ?_, fun h => ?_, fun h => ?_,
          fun h => ?_, fun h => ?_, fun h => ?_, fun h => ?_⟩
  · exact lowerBinary_wrapped_shape fuel a ">" "operator_gt" rfl rfl l r pid s s' inp h
  · exact lowerBinary_wrapped_shape fuel a "<" "operator_lt" rfl rfl l r pid s s' inp h
  · exact lowerBinary_wrapped_shape fuel a "==" "operator_equals" rfl rfl l r pid s s' inp h
  · exact lowerBinary_wrapped_shape fuel a "==" "operator_equals" rfl rfl l r pid s s' inp h
  · exact lowerBinary_plain_shape fuel a "<" "operator_lt" rfl rfl l r pid s s' inp h
  · exact lowerBinary_plain_shape fuel a ">" "operator_gt" rfl rfl l r pid s s' inp h
  · exact lowerBinary_plain_shape fuel a "==" "operator_equals" rfl rfl l r pid s s' inp h
  · exact lowerBinary_plain_shape fuel a "===" "operator_equals" rfl rfl l r pid s s' inp h

/-- Witness for C5 at the concrete comparison a <= b. -/
theorem C5_comparison_lowering_witness :
    ∃ inp s', convertExpressionToInput 10 {} (some (.binary "<=" (.ident "a") (.ident "b")))
        none ⟨[], 0, []⟩ = .ok (inp, s') ∧
      wrappedComparisonShape {} (.ident "a") (.ident "b") "operator_gt" true none inp s' :=
  ⟨_, _, rfl, (C5_comparison_lowering 9 {} (.ident "a") (.ident "b") none ⟨[], 0, []⟩ _ _).1 rfl⟩

mutual
theorem gateClean_checkStmt (s : Stmt) (h : gateCleanStmt s = true) : checkStmt s = [] := by
  cases s with
  | varDecl decls =>
      simp only [gateCleanStmt] at h
      simp [checkStmt, gateClean_checkDeclList decls h]
  | funcDecl name ps body isAsync =>
      simp only [gateCleanStmt, Bool.and_eq_true] at h
      obtain ⟨ha, hb⟩ := h
      simp only [Bool.not_eq_true'] at ha
      simp [checkStmt, ha, gateClean_checkStmtList body hb]
  | exprStmt e =>
      simp only [gateCleanStmt] at h
      simp [checkStmt, gateClean_checkExpr e h]
  | ifStmt t c alt =>
      simp only [gateCleanStmt, Bool.and_eq_true] at h
      obtain ⟨⟨ht, hc⟩, halt⟩ := h
      simp [checkStmt, gateClean_checkExpr t ht, gateClean_checkStmt c hc,
        gateClean_checkStmtOpt alt halt]
  | whileStmt t b =>
      simp only [gateCleanStmt, Bool.and_eq_true] at h
      obtain ⟨ht, hb⟩ := h
      simp [checkStmt, gateClean_checkExpr t ht, gateClean_checkStmt b hb]
  | forStmt finit t u b =>
      simp only [gateCleanStmt, Bool.and_eq_true] at h
      obtain ⟨⟨⟨hi, ht⟩, hu⟩, hb⟩ := h
      simp [checkStmt, gateClean_checkForInit finit hi, gateClean_checkExprOpt t ht,
        gateClean_checkExprOpt u hu, gateClean_checkStmt b hb]
  | blockStmt body =>
      simp only [gateCleanStmt] at h
      simp [checkStmt, gateClean_checkStmtList body h]
  | returnStmt arg =>
      simp only [gateCleanStmt] at h
      simp [checkStmt, gateClean_checkExprOpt arg h]
  | emptyStmt => simp [checkStmt]

theorem gateClean_checkForInit (fi : Option ForInit) (h : gateCleanForInit fi = true) :
    checkForInit fi = [] := by
  cases fi with
  | none => simp [checkForInit]
  | some v =>
      cases v with
      | decl decls =>
          simp only [gateCleanForInit] at h
          simp [checkForInit, gateClean_checkDeclList decls h]
      | expr e =>
          simp only [gateCleanForInit] at h
          simp [checkForInit, gateClean_checkExpr e h]

theorem gateClean_checkExpr (e : Expr) (h : gateCleanExpr e = true) : checkExpr e = [] := by
  cases e with
  | lit v => simp [checkExpr]
  | ident n => simp [checkExpr]
  | member o p c =>
      simp only [gateCleanExpr, Bool.and_eq_true, List.isEmpty_iff] at h
      obtain ⟨⟨hm, ho⟩, hp⟩ := h
      simp [checkExpr, hm, gateClean_checkExpr o ho, gateClean_checkExpr p hp]
  | call callee args =>
      simp only [gateCleanExpr, Bool.and_eq_true] at h
      obtain ⟨hc, ha⟩ := h
      simp [checkExpr, gateClean_checkExpr callee hc, gateClean_checkExprList args ha]
  | unary op arg =>
      simp only [gateCleanExpr] at h
      simp [checkExpr, gateClean_checkExpr arg h]
  | update op arg =>
      simp only [gateCleanExpr] at h
      simp [checkExpr, gateClean_checkExpr arg h]
  | assign op lhs rhs =>
      simp only [gateCleanExpr, Bool.and_eq_true] at h
      obtain ⟨hl, hr⟩ := h
      simp [checkExpr, gateClean_checkExpr lhs hl, gateClean_checkExpr rhs hr]
  | binary op lhs rhs =>
      simp only [gateCleanExpr, Bool.and_eq_true] at h
      obtain ⟨hl, hr⟩ := h
      simp [checkExpr, gateClean_checkExpr lhs hl, gateClean_checkExpr rhs hr]
  | cond t c alt =>
      simp only [gateCleanExpr, Bool.and_eq_true] at h
      obtain ⟨⟨ht, hc⟩, ha⟩ := h
      simp [checkExpr, gateClean_checkExpr t ht, gateClean_checkExpr c hc,
        gateClean_checkExpr alt ha]
  | arrow ps b isAsync =>
      simp only [gateCleanExpr, Bool.and_eq_true] at h
      obtain ⟨ha, hb⟩ := h
      simp only [Bool.not_eq_true'] at ha
      simp [checkExpr, ha, gateClean_checkFuncBody b hb]
  | funcExpr ps b isAsync =>
      simp only [gateCleanExpr, Bool.and_eq_true] at h
      obtain ⟨ha, hb⟩ := h
      simp only [Bool.not_eq_true'] at ha
      simp [checkExpr, ha, gateClean_checkStmtList b hb]
  | objectLit props =>
      simp only [gateCleanExpr] at h
      simp [checkExpr, gateClean_checkPropList props h]
  | arrayLit elems =>
      simp only [gateCleanExpr] at h
      simp [checkExpr, gateClean_checkExprList elems h]
  | awaitExpr arg => simp [gateCleanExpr] at h

theorem gateClean_checkFuncBody (b : FuncBody) (h : gateCleanFuncBody b = true) :
    checkFuncBody b = [] := by
  cases b with
  | block stmts =>
      simp only [gateCleanFuncBody] at h
      simp [checkFuncBody, gateClean_checkStmtList stmts h]
  | expr e =>
      simp only [gateCleanFuncBody] at h
      simp [checkFuncBody, gateClean_checkExpr e h]

theorem gateClean_checkStmtOpt (s : Option Stmt) (h : gateCleanStmtOpt s = true) :
    checkStmtOpt s = [] := by
  cases s with
  | none => simp [checkStmtOpt]
  | some v =>
      simp only [gateCleanStmtOpt] at h
      simp [checkStmtOpt, gateClean_checkStmt v h]

theorem gateClean_checkExprOpt (e : Option Expr) (h : gateCleanExprOpt e = true) :
    checkExprOpt e = [] := by
  cases e with
  | none => simp [checkExprOpt]
  | some v =>
      simp only [gateCleanExprOpt] at h
      simp [checkExprOpt, gateClean_checkExpr v h]

theorem gateClean_checkStmtList (ss : List Stmt) (h : gateCleanStmtList ss = true) :
    checkStmtList ss = [] := by
  cases ss with
  | nil => simp [checkStmtList]
  | cons s rest =>
      simp only [gateCleanStmtList, Bool.and_eq_true] at h
      obtain ⟨hs, hr⟩ := h
      simp [checkStmtList, gateClean_checkStmt s hs, gateClean_checkStmtList rest hr]

theorem gateClean_checkExprList (es : List Expr) (h : gateCleanExprList es = true) :
    checkExprList es = [] := by
  cases es with
  | nil => simp [checkExprList]
  | cons e rest =>
      simp only [gateCleanExprList, Bool.and_eq_true] at h
      obtain ⟨he, hr⟩ := h
      simp [checkExprList, gateClean_checkExpr e he, gateClean_checkExprList rest hr]

theorem gateClean_checkPropList (ps : List (PropKey × Expr))
    (h : gateCleanPropList ps = true) : checkPropList ps = [] := by
  cases ps with
  | nil => simp [checkPropList]
  | cons p rest =>
      simp only [gateCleanPropList, Bool.and_eq_true] at h
      obtain ⟨hp, hr⟩ := h
      simp [checkPropList, gateClean_checkExpr p.2 hp, gateClean_checkPropList rest hr]

theorem gateClean_checkDeclList (ds : List (String × Option Expr))
    (h : gateCleanDeclList ds = true) : checkDeclList ds = [] := by
  cases ds with
  | nil => simp [checkDeclList]
  | cons d rest =>
      simp only [gateCleanDeclList, Bool.and_eq_true] at h
      obtain ⟨hd, hr⟩ := h
      simp [checkDeclList, gateClean_checkExprOpt d.2 hd, gateClean_checkDeclList rest hr]
end

/-- C1: the claim states that every procedures_call block has a matching
procedures_definition with equal proccode and argumentids, also when the
recursive function is bound by a variable declaration with an
arrow-function initializer.  The code breaches it there: compiling
const f = (n) => n <= 1 ? 1 : f(n - 1); let x = f(2); emits one
procedures_call with proccode f and no procedures_definition at all
(variable declarations with function initializers are skipped by
convertNode), while the fact function-declaration program does emit a
matching definition for each of its calls. -/
theorem C1_arrow_recursive_call_lacks_definition :
    (translateToScratch astArrowRec).map
      (fun p => (countOpcode p.blocks "procedures_call",
                 countOpcode p.blocks "procedures_definition",
                 everyCallHasMatchingDefinition p.blocks)) = .ok (1, 0, false) ∧
    (translateToScratch astFact).map
      (fun p => (countOpcode p.blocks "procedures_call",
                 countOpcode p.blocks "procedures_definition",
                 everyCallHasMatchingDefinition p.blocks)) = .ok (2, 1, true) := ⟨rfl, rfl⟩

/-- C2 counterexample: the claim says block lowering never raises on a
parsed, gate-passing program and that an unmapped binary operator such as
% is skipped or safely encoded.  On let x = 5 % 2; the feature gate
reports nothing, yet compilation aborts with the rethrown error of
getBinaryOperatorOpcode. -/
theorem C2_unmapped_operator_aborts :
    checkUnsupportedFeatures astMod = [] ∧
    translateToScratch astMod =
      .error (.jsError "Failed to parse JavaScript: Unsupported binary operator: %") :=
  ⟨rfl, rfl⟩

/-- C2 amended: statement-position expressions with unmapped operators
are skipped silently (5 % 2; compiles to an empty block store), but
every binary operator outside the mapped set makes
getBinaryOperatorOpcode throw an error naming the operator, and in
expression position that aborts the whole compilation, as
let x = 5 % 2; shows. -/
theorem C2_statement_skip_expression_abort :
    (translateToScratch astModStmt).map (fun p => p.blocks) = .ok [] ∧
    (∀ op : String, op ∉ ["+", "-", "*", "/", "<", ">", "==", "==="] →
      getBinaryOperatorOpcode op =
        .error (.jsError ("Unsupported binary operator: " ++ op))) ∧
    translateToScratch astMod =
      .error (.jsError "Failed to parse JavaScript: Unsupported binary operator: %") := by
  refine ⟨rfl, ?_, rfl⟩
  intro op h
  simp only [List.mem_cons, List.not_mem_nil, or_false, not_or] at h
  obtain ⟨h1, h2, h3, h4, h5, h6, h7, h8⟩ := h
  simp [getBinaryOperatorOpcode, beq_eq_false_iff_ne.mpr h1, beq_eq_false_iff_ne.mpr h2,
    beq_eq_false_iff_ne.mpr h3, beq_eq_false_iff_ne.mpr h4, beq_eq_false_iff_ne.mpr h5,
    beq_eq_false_iff_ne.mpr h6, beq_eq_false_iff_ne.mpr h7, beq_eq_false_iff_ne.mpr h8]

/-- Witness for the amended C2 at the concrete operator %. -/
theorem C2_statement_skip_expression_abort_witness :
    getBinaryOperatorOpcode "%" = .error (.jsError "Unsupported binary operator: %") :=
  C2_statement_skip_expression_abort.2.1 "%" (by decide)

/-- C3 counterexample: the claim says every successfully compiled
program with a non-empty block store has exactly one top_level block.
The program if (x > 0) { function f(n) { return f(n - 1); } } compiles
successfully to seven blocks of which two are top_level: the nested
procedures_definition (kept top_level by the BlockStatement chain, with
a non-null parent) and the event block. -/
theorem C3_nested_recursive_definition_two_top_level :
    (translateToScratch astNestedRec).map
      (fun p => (p.blocks.length, topLevelEntries p.blocks)) =
      .ok (7, [("procedures_definition", some 1), ("event_whenflagclicked", none)]) := rfl

/-- C3 amended: when every recursive function declaration appears at
program top level, exactly one block is top_level, its opcode is
event_whenflagclicked and its parent is null; this holds in particular
for the fact program, whose procedures_definition is created top_level
and then chained behind the event block. -/
theorem C3_single_top_level_for_top_level_declarations :
    (translateToScratch astFact).map (fun p => topLevelEntries p.blocks) =
      .ok [("event_whenflagclicked", none)] ∧
    (translateToScratch astArrowRec).map (fun p => topLevelEntries p.blocks) =
      .ok [("event_whenflagclicked", none)] ∧
    (translateToScratch astEmptyBodies).map (fun p => topLevelEntries p.blocks) =
      .ok [("event_whenflagclicked", none)] := ⟨rfl, rfl, rfl⟩

/-- C4 counterexample: the claim says every [2, id] or [3, id, shadow]
input whose operand is a block reference names an existing block,
including the SUBSTACK stored for an empty if or while body.  Compiling
let x = 1; let y = 2; if (x < y) {} while (x < y) {} stores SUBSTACK
encodings [2, null] whose operand names no block at all, so the literal
reading of the invariant fails on that store. -/
theorem C4_empty_substack_stores_null_reference :
    (translateToScratch astEmptyBodies).map (fun p => allInputBlockIdsPresent p.blocks) =
      .ok false := rfl

/-- C4 amended: every non-null block-reference operand of every input
names an existing block; an empty if or while body stores the SUBSTACK
encoding [2, null] (two such inputs in the program above) rather than a
dangling id. -/
theorem C4_nonnull_input_ids_exist :
    (translateToScratch astEmptyBodies).map
      (fun p => (nonNullInputBlockIdsPresent p.blocks, countNullBlockRefOperands p.blocks)) =
      .ok (true, 2) ∧
    (translateToScratch astFact).map (fun p => nonNullInputBlockIdsPresent p.blocks) =
      .ok true ∧
    (translateToScratch astNestedRec).map (fun p => nonNullInputBlockIdsPresent p.blocks) =
      .ok true := ⟨rfl, rfl, rfl⟩

/-- C6: the claim (and the spec) say a call to a recursive function
allocates a sprite variable f_result; compiling the fact program yields
sprite variables containing only r, with no fact_result key. -/
theorem C6_no_result_variable_allocated :
    (translateToScratch astFact).map
      (fun p => (spriteHasVariable p "fact_result", p.spriteVariables)) =
      .ok (false, [("r", 0)]) := rfl

/-- C7 counterexample: the claim says the base name obj of an object
literal declaration does not appear among the analysed variables and
hence not in the sprite variables.  Compiling let obj = ... yields a
sprite variables mapping that does contain the key obj (pass C removes
only function and parameter names). -/
theorem C7_base_object_name_in_variables :
    (translateToScratch astObj).map (fun p => spriteHasVariable p "obj") = .ok true := rfl

/-- C7 amended: the flattened property names obj_a and obj_b are present
with their literal initial values, and the base name obj is present as
well, with initial value 0. -/
theorem C7_flattened_and_base_present :
    (translateToScratch astObj).map (fun p => p.spriteVariables) =
      .ok [("obj", 0), ("obj_a", 1), ("obj_b", 2)] := rfl

/-- C8 counterexample: the claim says the empty program compiles to
exactly two blocks, one event_whenflagclicked and one control_stop.  The
empty program compiles to an empty block store: the event and stop
blocks are only created when at least one statement produced a block. -/
theorem C8_empty_program_has_no_blocks :
    (translateToScratch astEmpty).map
      (fun p => (p.blocks.length, countOpcode p.blocks "event_whenflagclicked",
                 countOpcode p.blocks "control_stop")) = .ok (0, 0, 0) := rfl

/-- C8 amended: the empty program, and likewise a program whose
statements all lower to nothing, compiles to an empty block store. -/
theorem C8_empty_store_for_blockless_programs :
    (translateToScratch astEmpty).map (fun p => p.blocks) = .ok [] ∧
    (translateToScratch astFuncOnly).map (fun p => p.blocks) = .ok [] := ⟨rfl, rfl⟩

/-- C9: the claim (and the unit tests) say ctx.strokeStyle = E is
rewritten to scratch_stroke_color = E and ctx.lineWidth = E to
scratch_line_width = E.  The property switch of processNode handles only
fillStyle, font, textAlign and textBaseline; strokeStyle and lineWidth
fall to the default branch and are removed, so the canvas program above
transforms to the empty source. -/
theorem C9_stroke_and_linewidth_removed :
    processNode ⟨[], ["ctx"]⟩
      (.exprStmt (.assign "=" (.member (.ident "ctx") (.ident "strokeStyle") false)
        (.lit (.str "blue")))) = none ∧
    processNode ⟨[], ["ctx"]⟩
      (.exprStmt (.assign "=" (.member (.ident "ctx") (.ident "lineWidth") false)
        (.lit (.num 5)))) = none ∧
    transformCanvasToScratch astCanvas = some "" := ⟨rfl, rfl, rfl⟩

/-- C10 counterexample: the claim as stated concludes, for every
program in which a banned name occurs only as a bare identifier and
never inside a member expression, that the gate reports nothing AND that
translateToScratch succeeds.  The program let x = 5 % 2; fetch('u');
satisfies the premise (fetch occurs only as a bare callee identifier,
there is no member expression at all), the gate indeed reports nothing,
yet translateToScratch aborts on the unmapped operator, so the success
half of the conclusion is false. -/
theorem C10_gate_pass_without_success :
    checkUnsupportedFeatures astFetchMod = [] ∧
    translateToScratch astFetchMod =
      .error (.jsError "Failed to parse JavaScript: Unsupported binary operator: %") :=
  ⟨rfl, rfl⟩

/-- C10 amended: the feature gate inspects only member expressions (plus
async flags and await expressions): every program whose
member-expression strings miss the banned list and that contains no
async function and no await expression passes the gate, regardless of
banned names occurring as bare identifiers; in particular fetch('u');
and setTimeout(f, 0); pass the gate, and those two programs moreover
compile successfully.  Gate passing alone does not guarantee successful
compilation. -/
theorem C10_gate_ignores_bare_identifiers :
    (∀ prog : Program, gateCleanStmtList prog = true → checkUnsupportedFeatures prog = []) ∧
    checkUnsupportedFeatures astFetch = [] ∧
    (translateToScratch astFetch).map (fun p => p.blocks) = .ok [] ∧
    checkUnsupportedFeatures astSetTimeoutCall = [] ∧
    (translateToScratch astSetTimeoutCall).map (fun p => p.blocks) = .ok [] :=
  ⟨fun prog h => gateClean_checkStmtList prog h, rfl, rfl, rfl, rfl⟩

/-- Witness for C10: the gate property applied at the concrete program
fetch('u'); whose gate-clean hypothesis holds by computation. -/
theorem C10_gate_ignores_bare_identifiers_witness :
    checkUnsupportedFeatures astFetch = [] :=
  C10_gate_ignores_bare_identifiers.1 astFetch rfl
